import Mathlib

/-!
# Verification of the freqmoda streaming-engine parameter model

Shallow embedding of the parameter model, filter assembly, merge logic and
request handler of the repository (streaming-engine and gateway-service
crates), with theorems settling the specification claims.

Rust `f64` values are modelled as rationals `ℚ` (every finite double is a
rational with a terminating decimal expansion); `i32` values as `Int`.
`HashMap` values are modelled as association lists: iteration order of a
Rust `HashMap` is unspecified, and no claim depends on it, so a list fixes
one admissible order.  Rust's float/int `to_string` and `parse` are
modelled by the executable decimal codec below, whose round-trip property
(the stdlib contract) is proved for rationals with terminating decimal
expansion, which covers every finite `f64`.
-/

set_option maxHeartbeats 1000000
set_option maxRecDepth 8192

/- Batteries marks the `Rat` arithmetic irreducible; concrete witnesses
evaluate it, so restore default transparency locally. -/
attribute [local semireducible] Rat.mul Rat.add Rat.sub Rat.inv

namespace FreqModa

/-! ## Characters and digits -/

/-- The character for a decimal digit `d < 10` (models Rust digit output). -/
def digitChar (d : Nat) : Char := Char.ofNat (48 + d)

/-- Numeric value of a digit character. -/
def charVal (c : Char) : Nat := c.toNat - 48

/-- Whether `c` is an ASCII decimal digit. -/
def isDigitChar (c : Char) : Bool := 48 ≤ c.toNat && c.toNat ≤ 57

/-- Little-endian decimal digits of `n`, with explicit fuel (`fuel ≥ n`
suffices for correctness). -/
def digitsLE : Nat → Nat → List Nat
  | 0, _ => []
  | fuel + 1, n => if n = 0 then [] else n % 10 :: digitsLE fuel (n / 10)

/-- Value of a little-endian digit list. -/
def ofLE (l : List Nat) : Nat := l.foldr (fun d acc => d + 10 * acc) 0

/-- Big-endian decimal digits of `n` (empty for `0`). -/
def natDigits (n : Nat) : List Nat := (digitsLE n n).reverse

/-- Exactly `k` little-endian decimal digits of `n` (correct for `n < 10^k`). -/
def digitsLEPad : Nat → Nat → List Nat
  | 0, _ => []
  | k + 1, n => n % 10 :: digitsLEPad k (n / 10)

/-- Decimal rendering of a natural number, as characters
(models Rust's integer `to_string`). -/
def natToChars (n : Nat) : List Char :=
  if n = 0 then ['0'] else (natDigits n).map digitChar

/-- Value of a big-endian digit-character list. -/
def parseFold (l : List Char) : Nat := l.foldl (fun acc c => acc * 10 + charVal c) 0

/-- All characters are decimal digits. -/
def allDigits (l : List Char) : Bool := l.all isDigitChar

/-- Split a character list on a separator, Rust `str::split` semantics:
`split '/' "" = [""]`, `split '/' "a//b" = ["a","","b"]`. -/
def splitCharList (sep : Char) : List Char → List (List Char)
  | [] => [[]]
  | c :: rest =>
    let r := splitCharList sep rest
    if c = sep then [] :: r
    else
      match r with
      | [] => [[c]]
      | h :: t => (c :: h) :: t

/-- Rust `str::split` on a single-character pattern, over `String`. -/
def splitStr (sep : Char) (s : String) : List String :=
  (splitCharList sep s.data).map fun l => ⟨l⟩

/-! ## The decimal codec modelling `f64`/`i32` `to_string` and `parse` -/

/-- Parse an unsigned decimal number `digits [ '.' digits ]` to a rational
(the fragment of Rust's `f64::from_str` grammar exercised by the engine;
`inf`, `nan` and exponent forms are not modelled). -/
def parseNonnegQ (l : List Char) : Option ℚ :=
  match splitCharList '.' l with
  | [ip] => if ip ≠ [] ∧ allDigits ip then some ((parseFold ip : ℚ)) else none
  | [ip, fp] =>
    if (ip ≠ [] ∨ fp ≠ []) ∧ allDigits ip ∧ allDigits fp then
      some ((parseFold ip : ℚ) + (parseFold fp : ℚ) / (10 : ℚ) ^ fp.length)
    else none
  | _ => none

/-- Model of Rust `value.parse::<f64>()` on finite decimal inputs. -/
def parseF64 (s : String) : Option ℚ :=
  match s.data with
  | c :: rest =>
    if c = '-' then (parseNonnegQ rest).map fun q => -q else parseNonnegQ (c :: rest)
  | [] => none

/-- Parse a signed decimal integer. -/
def parseIntChars (l : List Char) : Option Int :=
  match l with
  | c :: rest =>
    if c = '-' then
      if rest ≠ [] ∧ allDigits rest then some (-(parseFold rest : Int)) else none
    else if allDigits (c :: rest) then some ((parseFold (c :: rest) : Int)) else none
  | [] => none

/-- Model of Rust `value.parse::<i32>()` (range-checked). -/
def parseI32 (s : String) : Option Int :=
  match parseIntChars s.data with
  | some v => if -2147483648 ≤ v ∧ v ≤ 2147483647 then some v else none
  | none => none

/-- Count of factors `p` in `n`, with fuel. -/
def pCount (p : Nat) : Nat → Nat → Nat
  | 0, _ => 0
  | fuel + 1, n => if n ≠ 0 ∧ n % p = 0 then pCount p fuel (n / p) + 1 else 0

/-- `n` with all factors `p` divided out, with fuel. -/
def stripP (p : Nat) : Nat → Nat → Nat
  | 0, n => n
  | fuel + 1, n => if n ≠ 0 ∧ n % p = 0 then stripP p fuel (n / p) else n

/-- 2-adic valuation of `d`. -/
def twoAdic (d : Nat) : Nat := pCount 2 d d

/-- `d` with factors of 2 removed. -/
def rest2 (d : Nat) : Nat := stripP 2 d d

/-- 5-adic valuation of the odd part of `d`. -/
def fiveAdic (d : Nat) : Nat := pCount 5 (rest2 d) (rest2 d)

/-- `d` with factors 2 and 5 removed. -/
def rest25 (d : Nat) : Nat := stripP 5 (rest2 d) (rest2 d)

/-- Number of fraction digits needed for `1/d`. -/
def decExp (d : Nat) : Nat := twoAdic d + fiveAdic d

/-- A rational has a terminating decimal expansion (its reduced denominator
has only factors 2 and 5).  Every finite `f64` value satisfies this. -/
def isDecimal (q : ℚ) : Bool := rest25 q.den = 1

/-- Trailing `'0'` characters removed. -/
def stripTrailingZeros (l : List Char) : List Char :=
  ((l.reverse).dropWhile (fun c => c = '0')).reverse

/-- Decimal rendering of a nonnegative decimal rational, as characters. -/
def fmtDecNonnegChars (q : ℚ) : List Char :=
  let k := decExp q.den
  let m := 10 ^ k / q.den
  let n := q.num.toNat * m
  let intChars := natToChars (n / 10 ^ k)
  let fracChars := stripTrailingZeros (((digitsLEPad k (n % 10 ^ k)).map digitChar).reverse)
  if fracChars = [] then intChars else intChars ++ '.' :: fracChars

/-- Model of Rust `f64::to_string` (shortest decimal form, no exponent). -/
def fmtF64 (q : ℚ) : String :=
  if q < 0 then ⟨'-' :: fmtDecNonnegChars (-q)⟩ else ⟨fmtDecNonnegChars q⟩

/-- Model of Rust `i32::to_string` / integer rendering. -/
def fmtInt (n : Int) : String :=
  if n < 0 then ⟨'-' :: natToChars n.natAbs⟩ else ⟨natToChars n.natAbs⟩

/-- Floor of a rational, executable. -/
def ratFloor (q : ℚ) : Int := Int.fdiv q.num q.den

/-- Round to nearest integer, ties to even (the rounding used by Rust's
fixed-precision float formatting). -/
def roundHalfEven (q : ℚ) : Int :=
  let fl := ratFloor q
  let fr := q - (fl : ℚ)
  if fr < 1 / 2 then fl
  else if 1 / 2 < fr then fl + 1
  else if fl % 2 = 0 then fl else fl + 1

/-- Fixed-precision rendering of a nonnegative scaled integer `n / 10^k`
with exactly `k` fraction digits. -/
def fmtFixedNat (k n : Nat) : List Char :=
  natToChars (n / 10 ^ k) ++
    (if k = 0 then [] else '.' :: ((digitsLEPad k (n % 10 ^ k)).map digitChar).reverse)

/-- Model of Rust `format!` with float precision `k` (e.g. `{:.3}`). -/
def fmtFixed (k : Nat) (q : ℚ) : String :=
  if q < 0 then ⟨'-' :: fmtFixedNat k (roundHalfEven (-q * 10 ^ k)).toNat⟩
  else ⟨fmtFixedNat k (roundHalfEven (q * 10 ^ k)).toNat⟩

/-! ## The data model (`streaming-engine/src/streamingpath/params.rs`,
`streaming-engine/src/blob.rs`) -/

/-- Modelled from the spec: `AudioFormat` (the file `src/blob.rs` defining it
is not part of the provided sources; the spec lists the variants
`Mp3, Wav, Flac, Ogg, M4a, Opus, Unknown`). -/
inductive AudioFormat where
  | mp3 | wav | flac | ogg | m4a | opus | unknown
  deriving DecidableEq, Repr

/-- Modelled from the spec: `Display` for `AudioFormat` renders the
lowercase extension name. -/
def AudioFormat.toStr : AudioFormat → String
  | .mp3 => "mp3"
  | .wav => "wav"
  | .flac => "flac"
  | .ogg => "ogg"
  | .m4a => "m4a"
  | .opus => "opus"
  | .unknown => "unknown"

/-- Modelled from the spec: `AudioFormat::from_str` recognises exactly the
variant names; any other string fails to parse. -/
def parseAudioFormat (s : String) : Option AudioFormat :=
  if s = "mp3" then some .mp3
  else if s = "wav" then some .wav
  else if s = "flac" then some .flac
  else if s = "ogg" then some .ogg
  else if s = "m4a" then some .m4a
  else if s = "opus" then some .opus
  else if s = "unknown" then some .unknown
  else none

/-- `Params` from `streamingpath/params.rs` (field for field; `f64` as `ℚ`,
`i32` as `Int`, `Vec<String>` as `List String`, `HashMap<String,String>` as
an association list). -/
structure Params where
  key : String := ""
  format : Option AudioFormat := none
  codec : Option String := none
  sample_rate : Option Int := none
  channels : Option Int := none
  bit_rate : Option Int := none
  bit_depth : Option Int := none
  quality : Option ℚ := none
  compression_level : Option Int := none
  start_time : Option ℚ := none
  duration : Option ℚ := none
  speed : Option ℚ := none
  reverse : Option Bool := none
  volume : Option ℚ := none
  normalize : Option Bool := none
  normalize_level : Option ℚ := none
  lowpass : Option ℚ := none
  highpass : Option ℚ := none
  bandpass : Option String := none
  bass : Option ℚ := none
  treble : Option ℚ := none
  echo : Option String := none
  chorus : Option String := none
  flanger : Option String := none
  phaser : Option String := none
  tremolo : Option String := none
  compressor : Option String := none
  noise_reduction : Option String := none
  fade_in : Option ℚ := none
  fade_out : Option ℚ := none
  cross_fade : Option ℚ := none
  custom_filters : Option (List String) := none
  custom_options : Option (List String) := none
  tags : Option (List (String × String)) := none

/-! ## Filter assembly (`Params::collect_filters` in
`streamingpath/params.rs:465-536`) -/

/-- Eliminate an optional field into its filter contribution
(one `if let Some(x) = field { filters.push(...) }` block). -/
def optStage {α : Type} (o : Option α) (f : α → List String) : List String :=
  match o with
  | some v => f v
  | none => []

/-- `Params::collect_filters`: the sequence of `filters.push(...)` calls
from `streamingpath/params.rs:465-536`, transcribed in source order as an
append chain (each summand is one push site, guarded by the source's
condition). -/
def Params.collect_filters (p : Params) : List String :=
  optStage p.speed (fun speed => if speed ≠ 1 then ["atempo=" ++ fmtFixed 3 speed] else []) ++
  (if p.reverse = some true then ["areverse"] else []) ++
  optStage p.volume (fun volume => if volume ≠ 1 then ["volume=" ++ fmtFixed 2 volume] else []) ++
  (if p.normalize = some true then ["loudnorm=I=" ++ fmtFixed 1 (p.normalize_level.getD (-16))] else []) ++
  optStage p.lowpass (fun freq => ["lowpass=f=" ++ fmtFixed 1 freq]) ++
  optStage p.highpass (fun freq => ["highpass=f=" ++ fmtFixed 1 freq]) ++
  optStage p.bandpass (fun band => ["bandpass=" ++ band]) ++
  optStage p.bass (fun bass => ["bass=g=" ++ fmtFixed 1 bass]) ++
  optStage p.treble (fun treble => ["treble=g=" ++ fmtFixed 1 treble]) ++
  optStage p.echo (fun echo => ["aecho=" ++ echo]) ++
  optStage p.chorus (fun chorus => ["chorus=" ++ chorus]) ++
  optStage p.flanger (fun flanger => ["flanger=" ++ flanger]) ++
  optStage p.phaser (fun phaser => ["aphaser=" ++ phaser]) ++
  optStage p.tremolo (fun tremolo => ["tremolo=" ++ tremolo]) ++
  optStage p.compressor (fun compressor => ["acompressor=" ++ compressor]) ++
  optStage p.noise_reduction (fun nr => ["anlmdn=" ++ nr]) ++
  optStage p.fade_in (fun fade => ["afade=t=in:d=" ++ fmtFixed 3 fade]) ++
  optStage p.fade_out (fun fade => ["afade=t=out:d=" ++ fmtFixed 3 fade]) ++
  optStage p.cross_fade (fun fade => ["acrossfade=d=" ++ fmtFixed 3 fade]) ++
  optStage p.custom_filters (fun custom => custom)

/-! ## Processor-side filter assembly
(`processor/ffmpeg.rs:32-107`, an independent re-implementation) -/

/-- The push sequence of `collect_filters` in `processor/ffmpeg.rs:33-100`,
transcribed the same way (the Rust code is line-for-line the same sequence
of push sites as the `params.rs` implementation). -/
def ffmpegFilterList (p : Params) : List String :=
  optStage p.speed (fun speed => if speed ≠ 1 then ["atempo=" ++ fmtFixed 3 speed] else []) ++
  (if p.reverse = some true then ["areverse"] else []) ++
  optStage p.volume (fun volume => if volume ≠ 1 then ["volume=" ++ fmtFixed 2 volume] else []) ++
  (if p.normalize = some true then ["loudnorm=I=" ++ fmtFixed 1 (p.normalize_level.getD (-16))] else []) ++
  optStage p.lowpass (fun freq => ["lowpass=f=" ++ fmtFixed 1 freq]) ++
  optStage p.highpass (fun freq => ["highpass=f=" ++ fmtFixed 1 freq]) ++
  optStage p.bandpass (fun band => ["bandpass=" ++ band]) ++
  optStage p.bass (fun bass => ["bass=g=" ++ fmtFixed 1 bass]) ++
  optStage p.treble (fun treble => ["treble=g=" ++ fmtFixed 1 treble]) ++
  optStage p.echo (fun echo => ["aecho=" ++ echo]) ++
  optStage p.chorus (fun chorus => ["chorus=" ++ chorus]) ++
  optStage p.flanger (fun flanger => ["flanger=" ++ flanger]) ++
  optStage p.phaser (fun phaser => ["aphaser=" ++ phaser]) ++
  optStage p.tremolo (fun tremolo => ["tremolo=" ++ tremolo]) ++
  optStage p.compressor (fun compressor => ["acompressor=" ++ compressor]) ++
  optStage p.noise_reduction (fun nr => ["anlmdn=" ++ nr]) ++
  optStage p.fade_in (fun fade => ["afade=t=in:d=" ++ fmtFixed 3 fade]) ++
  optStage p.fade_out (fun fade => ["afade=t=out:d=" ++ fmtFixed 3 fade]) ++
  optStage p.cross_fade (fun fade => ["acrossfade=d=" ++ fmtFixed 3 fade]) ++
  optStage p.custom_filters (fun custom => custom)

/-- `collect_filters` from `processor/ffmpeg.rs:32-107`: the same push
sequence, then `None` if the list is empty, else the comma-joined string
(lines 102-106). -/
def ffmpeg_collect_filters (p : Params) : Option String :=
  let fs := ffmpegFilterList p
  if fs.isEmpty then none else some (String.intercalate "," fs)

/-! ## Query parsing (`Params::from_path`, `params.rs:222-312`) -/

/-- `List.isPrefixOf` as the model of Rust `str::starts_with`. -/
def strStarts (pat s : String) : Bool := pat.data.isPrefixOf s.data

/-- Repeatedly strip a leading occurrence of `pat`, with fuel
(Rust `str::trim_start_matches` removes every leading occurrence). -/
def trimStartAux (pat : List Char) : Nat → List Char → List Char
  | 0, l => l
  | fuel + 1, l =>
    if pat ≠ [] ∧ pat.isPrefixOf l then trimStartAux pat fuel (l.drop pat.length) else l

/-- Rust `s.trim_start_matches(pat)`. -/
def trimStartMatches (pat s : String) : String :=
  ⟨trimStartAux pat.data s.data.length s.data⟩

/-- `HashMap::insert` on an association list: replace the value of an
existing key in place, else append. -/
def insertA : List (String × String) → String → String → List (String × String)
  | [], k, v => [(k, v)]
  | (a, b) :: t, k, v => if a = k then (a, v) :: t else (a, b) :: insertA t k v

/-- The body of the `for (key, value) in query` loop of `Params::from_path`
(`params.rs:249-308`): one query pair updates the explicit-parameter record. -/
def applyParam (acc : Params) : String × String → Params
  | (k, v) =>
  if k = "encoded" then acc
  else if k = "format" then { acc with format := some ((parseAudioFormat v).getD .mp3) }
  else if k = "codec" then { acc with codec := some v }
  else if k = "sample_rate" then { acc with sample_rate := parseI32 v }
  else if k = "channels" then { acc with channels := parseI32 v }
  else if k = "bit_rate" then { acc with bit_rate := parseI32 v }
  else if k = "bit_depth" then { acc with bit_depth := parseI32 v }
  else if k = "quality" then { acc with quality := parseF64 v }
  else if k = "compression_level" then { acc with compression_level := parseI32 v }
  else if k = "start_time" then { acc with start_time := parseF64 v }
  else if k = "duration" then { acc with duration := parseF64 v }
  else if k = "speed" then { acc with speed := parseF64 v }
  else if k = "reverse" then { acc with reverse := some (v = "true" || v = "1") }
  else if k = "volume" then { acc with volume := parseF64 v }
  else if k = "normalize" then { acc with normalize := some (v = "true" || v = "1") }
  else if k = "normalize_level" then { acc with normalize_level := parseF64 v }
  else if k = "lowpass" then { acc with lowpass := parseF64 v }
  else if k = "highpass" then { acc with highpass := parseF64 v }
  else if k = "bandpass" then { acc with bandpass := some v }
  else if k = "bass" then { acc with bass := parseF64 v }
  else if k = "treble" then { acc with treble := parseF64 v }
  else if k = "echo" then { acc with echo := some v }
  else if k = "chorus" then { acc with chorus := some v }
  else if k = "flanger" then { acc with flanger := some v }
  else if k = "phaser" then { acc with phaser := some v }
  else if k = "tremolo" then { acc with tremolo := some v }
  else if k = "compressor" then { acc with compressor := some v }
  else if k = "noise_reduction" then { acc with noise_reduction := some v }
  else if k = "fade_in" then { acc with fade_in := parseF64 v }
  else if k = "fade_out" then { acc with fade_out := parseF64 v }
  else if k = "cross_fade" then { acc with cross_fade := parseF64 v }
  else if strStarts "tag_" k then
    { acc with tags := some (insertA (acc.tags.getD []) (trimStartMatches "tag_" k) v) }
  else if strStarts "filter_" k then
    { acc with custom_filters := some (acc.custom_filters.getD [] ++ [v]) }
  else if strStarts "option_" k then
    { acc with custom_options := some (acc.custom_options.getD [] ++ [v]) }
  else acc

/-- `Params::merge_with` (`params.rs:621-734`): `other` wins for set
fields; the key is replaced only when `other`'s is non-empty; `tags`
are merged with `other` winning; sequence fields replace wholesale. -/
def Params.merge_with (self other : Params) : Params :=
  { key := if other.key ≠ "" then other.key else self.key
    format := if other.format.isSome then other.format else self.format
    codec := if other.codec.isSome then other.codec else self.codec
    sample_rate := if other.sample_rate.isSome then other.sample_rate else self.sample_rate
    channels := if other.channels.isSome then other.channels else self.channels
    bit_rate := if other.bit_rate.isSome then other.bit_rate else self.bit_rate
    bit_depth := if other.bit_depth.isSome then other.bit_depth else self.bit_depth
    quality := if other.quality.isSome then other.quality else self.quality
    compression_level := if other.compression_level.isSome then other.compression_level else self.compression_level
    start_time := if other.start_time.isSome then other.start_time else self.start_time
    duration := if other.duration.isSome then other.duration else self.duration
    speed := if other.speed.isSome then other.speed else self.speed
    reverse := if other.reverse.isSome then other.reverse else self.reverse
    volume := if other.volume.isSome then other.volume else self.volume
    normalize := if other.normalize.isSome then other.normalize else self.normalize
    normalize_level := if other.normalize_level.isSome then other.normalize_level else self.normalize_level
    lowpass := if other.lowpass.isSome then other.lowpass else self.lowpass
    highpass := if other.highpass.isSome then other.highpass else self.highpass
    bandpass := if other.bandpass.isSome then other.bandpass else self.bandpass
    bass := if other.bass.isSome then other.bass else self.bass
    treble := if other.treble.isSome then other.treble else self.treble
    echo := if other.echo.isSome then other.echo else self.echo
    chorus := if other.chorus.isSome then other.chorus else self.chorus
    flanger := if other.flanger.isSome then other.flanger else self.flanger
    phaser := if other.phaser.isSome then other.phaser else self.phaser
    tremolo := if other.tremolo.isSome then other.tremolo else self.tremolo
    compressor := if other.compressor.isSome then other.compressor else self.compressor
    noise_reduction := if other.noise_reduction.isSome then other.noise_reduction else self.noise_reduction
    fade_in := if other.fade_in.isSome then other.fade_in else self.fade_in
    fade_out := if other.fade_out.isSome then other.fade_out else self.fade_out
    cross_fade := if other.cross_fade.isSome then other.cross_fade else self.cross_fade
    custom_filters := if other.custom_filters.isSome then other.custom_filters else self.custom_filters
    custom_options := if other.custom_options.isSome then other.custom_options else self.custom_options
    tags :=
      match other.tags with
      | some ot => some (ot.foldl (fun acc kv => insertA acc kv.1 kv.2) (self.tags.getD []))
      | none => self.tags }

/-- The explicit-parameter record built by the query loop of `from_path`. -/
def buildExplicit (key0 : String) (query : List (String × String)) : Params :=
  query.foldl applyParam { key := key0 }

/-- `Params::from_path` (`params.rs:222-312`).  The base64+JSON decoding of
the `encoded` blob (`Params::decode`, which delegates to serde) is passed in
as a function.  The query `HashMap` is modelled as an association list in
one admissible iteration order. -/
def from_path (decode : String → Option Params) (path : String)
    (query : List (String × String)) : Except String Params :=
  match (splitStr '/' path).getLast? with
  | none => .error "Invalid audio path"
  | some key0 =>
    match query.lookup "encoded" with
    | some enc =>
      match decode enc with
      | some bp => .ok (Params.merge_with { bp with key := key0 } (buildExplicit key0 query))
      | none => .error "Failed to decode encoded params"
    | none => .ok (Params.merge_with { key := key0 } (buildExplicit key0 query))

/-- `form_urlencoded::parse` modelled without percent-decoding: split on
`&`, split each pair at the first `=`. -/
def queryStringParse (s : String) : List (String × String) :=
  (splitCharList '&' s.data).map fun item =>
    match splitCharList '=' item with
    | k :: vs => (⟨k⟩, ⟨List.intercalate ['='] vs⟩)
    | [] => ("", "")

/-- `Params::from_str` (`params.rs:171-194`): split off the query at `?`,
strip leading slashes, take the last path component as the audio key. -/
def from_str (decode : String → Option Params) (s : String) : Except String Params :=
  let parts := splitStr '?' s
  let path := (parts.headD "").data.dropWhile (fun c => c = '/')
  let path_components := splitCharList '/' path
  let audio : String := ⟨path_components.getLastD []⟩
  if parts.length ≤ 1 then from_path decode audio []
  else from_path decode audio (queryStringParse (parts.getD 1 ""))

/-! ## Query rendering (`Params::to_query`, `params.rs:314-420`) -/

/-- One optional `query.insert(name, value)` site of `to_query`. -/
def qEntry {α : Type} (k : String) (o : Option α) (f : α → List String) :
    List (String × List String) :=
  match o with
  | some v => [(k, f v)]
  | none => []

/-- Rust `bool::to_string`. -/
def fmtBool (b : Bool) : String := if b then "true" else "false"

/-- `Params::to_query`: the insertion sites in source order (the Rust
result is a `HashMap`; the list records one admissible iteration order,
namely insertion order). -/
def Params.to_query (p : Params) : List (String × List String) :=
  qEntry "format" p.format (fun f => [f.toStr]) ++
  qEntry "codec" p.codec (fun c => [c]) ++
  qEntry "sample_rate" p.sample_rate (fun n => [fmtInt n]) ++
  qEntry "channels" p.channels (fun n => [fmtInt n]) ++
  qEntry "bit_rate" p.bit_rate (fun n => [fmtInt n]) ++
  qEntry "bit_depth" p.bit_depth (fun n => [fmtInt n]) ++
  qEntry "quality" p.quality (fun q => [fmtF64 q]) ++
  qEntry "compression_level" p.compression_level (fun n => [fmtInt n]) ++
  qEntry "start_time" p.start_time (fun q => [fmtF64 q]) ++
  qEntry "duration" p.duration (fun q => [fmtF64 q]) ++
  qEntry "speed" p.speed (fun q => [fmtF64 q]) ++
  qEntry "reverse" p.reverse (fun b => [fmtBool b]) ++
  qEntry "volume" p.volume (fun q => [fmtF64 q]) ++
  qEntry "normalize" p.normalize (fun b => [fmtBool b]) ++
  qEntry "normalize_level" p.normalize_level (fun q => [fmtF64 q]) ++
  qEntry "lowpass" p.lowpass (fun q => [fmtF64 q]) ++
  qEntry "highpass" p.highpass (fun q => [fmtF64 q]) ++
  qEntry "bandpass" p.bandpass (fun s => [s]) ++
  qEntry "bass" p.bass (fun q => [fmtF64 q]) ++
  qEntry "treble" p.treble (fun q => [fmtF64 q]) ++
  qEntry "echo" p.echo (fun s => [s]) ++
  qEntry "chorus" p.chorus (fun s => [s]) ++
  qEntry "flanger" p.flanger (fun s => [s]) ++
  qEntry "phaser" p.phaser (fun s => [s]) ++
  qEntry "tremolo" p.tremolo (fun s => [s]) ++
  qEntry "compressor" p.compressor (fun s => [s]) ++
  qEntry "noise_reduction" p.noise_reduction (fun s => [s]) ++
  qEntry "fade_in" p.fade_in (fun q => [fmtF64 q]) ++
  qEntry "fade_out" p.fade_out (fun q => [fmtF64 q]) ++
  qEntry "cross_fade" p.cross_fade (fun q => [fmtF64 q]) ++
  qEntry "custom_filters" p.custom_filters (fun l => l) ++
  qEntry "custom_options" p.custom_options (fun l => l) ++
  (match p.tags with
   | some tags => tags.map fun kv => ("tag_" ++ kv.1, [kv.2])
   | none => [])

/-- Flatten a rendered query to key/value pairs (as `Display for Params`
does with its `flat_map`). -/
def flattenQuery (l : List (String × List String)) : List (String × String) :=
  l.flatMap fun kv => kv.2.map fun v => (kv.1, v)

/-- `{p with key := k}`: the claims' `with_key` operation. -/
def Params.with_key (p : Params) (k : String) : Params := { p with key := k }

/-! ## The dispatcher handler
(`streaming-engine/src/routes/streamingpath.rs:16-97`) -/

/-- An audio blob with its mime type (model of `AudioBuffer`). -/
structure AudioBlob where
  bytes : List Nat
  mime : String

/-- Outcome of the axum handler: a built 200 response or an error status. -/
inductive HandlerResult where
  | ok (contentType : String) (body : List Nat)
  | err (status : Nat) (msg : String)
  deriving DecidableEq

/-- `streamingpath_handler` (`routes/streamingpath.rs:16-97`), with the
storage backend, the source fetch, the processor and the hasher
(`suffix_result_storage_hasher`, whose module is not under `src/`) passed
in as functions.  Status codes: 404 for a failed source fetch, 500 for a
failed pipeline, and the put-error branch of lines 76-86. -/
def streamingpath_handler
    (hasher : Params → String)
    (storageGet : String → Except String AudioBlob)
    (storagePut : String → AudioBlob → Except String Unit)
    (httpFetch : String → Except String AudioBlob)
    (process : AudioBlob → Params → Except String AudioBlob)
    (p : Params) : HandlerResult :=
  let params_hash := hasher p
  match storageGet params_hash with
  | .ok blob => .ok blob.mime blob.bytes
  | .error _ =>
    let fetched : Except (Nat × String) AudioBlob :=
      if strStarts "https://" p.key || strStarts "http://" p.key then
        match httpFetch p.key with
        | .ok b => .ok b
        | .error e => .error (404, "Failed to fetch audio: " ++ e)
      else
        match storageGet p.key with
        | .ok b => .ok b
        | .error e => .error (404, "Failed to fetch audio: " ++ e)
    match fetched with
    | .error es => .err es.1 es.2
    | .ok blob =>
      match process blob p with
      | .error e => .err 500 ("Failed to process audio: " ++ e)
      | .ok processed =>
        match storagePut params_hash processed with
        | .error e => .err 500 ("Failed to save result audio: " ++ e)
        | .ok _ => .ok processed.mime processed.bytes

/-! ## Gateway-side effect presets
(`gateway-service/src/services/claude.rs:198`, reachable as
`ClaudeService::get_effect_presets`, and
`gateway-service/src/services/streaming_engine.rs:277-298`,
`apply_effect_presets`) -/

/-- ASCII lowercasing over the character data (model of Rust
`str::to_lowercase` on the ASCII preset names). -/
def strToLower (s : String) : String := ⟨s.data.map Char.toLower⟩

/-- A `serde_json::Value` restricted to the shapes the preset rewriter
inspects. -/
inductive JVal where
  | jstr (s : String)
  | jnum (q : ℚ)
  | jbool (b : Bool)
  deriving DecidableEq

/-- `get_effect_presets`: preset name → canonical ffmpeg parameter tuple,
for the `echo`, `chorus` and `flanger` effects. -/
def get_effect_presets : List (String × List (String × String)) :=
  [("echo",
    [("light", "0.6:0.3:1000:0.3"),
     ("medium", "0.8:0.88:60:0.4"),
     ("heavy", "0.8:0.9:1000:0.5")]),
   ("chorus",
    [("light", "0.5:0.9:50:0.4:0.25:2"),
     ("medium", "0.7:0.9:50:0.4:0.25:2"),
     ("heavy", "0.9:0.9:50:0.4:0.25:2")]),
   ("flanger",
    [("light", "0.5:0.75:2:0.25:2"),
     ("medium", "0.7:0.75:3:0.25:2"),
     ("heavy", "0.9:0.75:4:0.25:2")])]

/-- `apply_effect_presets` (`streaming_engine.rs:277-298`): rewrite every
string-valued parameter whose key has a preset table and whose lowercased
value is a preset name to the canonical tuple; `audio_name` is skipped. -/
def apply_effect_presets (obj : List (String × JVal)) : List (String × JVal) :=
  obj.map fun kv =>
    if kv.1 = "audio_name" then kv
    else
      match kv.2 with
      | .jstr s =>
        match (get_effect_presets.lookup kv.1).bind (fun m => m.lookup (strToLower s)) with
        | some preset => (kv.1, .jstr preset)
        | none => kv
      | _ => kv

/-! ## Correctness of the digit machinery -/

theorem ofLE_nil : ofLE [] = 0 := rfl

theorem ofLE_cons (d : Nat) (l : List Nat) : ofLE (d :: l) = d + 10 * ofLE l := rfl

theorem digitsLE_lt_ten : ∀ fuel n d, d ∈ digitsLE fuel n → d < 10 := by
  intro fuel
  induction fuel with
  | zero => intro n d h; simp [digitsLE] at h
  | succ f ih =>
    intro n d h
    by_cases hn : n = 0
    · simp [digitsLE, hn] at h
    · simp only [digitsLE, if_neg hn, List.mem_cons] at h
      rcases h with h | h
      · subst h; exact Nat.mod_lt _ (by norm_num)
      · exact ih _ _ h

theorem ofLE_digitsLE : ∀ fuel n, n ≤ fuel → ofLE (digitsLE fuel n) = n := by
  intro fuel
  induction fuel with
  | zero => intro n h; interval_cases n; rfl
  | succ f ih =>
    intro n h
    by_cases hn : n = 0
    · subst hn; simp [digitsLE, ofLE]
    · have hlt : n / 10 < n := Nat.div_lt_self (Nat.pos_of_ne_zero hn) (by norm_num)
      simp only [digitsLE, if_neg hn, ofLE_cons]
      rw [ih (n / 10) (by omega)]
      omega

theorem digitsLEPad_lt_ten : ∀ k n d, d ∈ digitsLEPad k n → d < 10 := by
  intro k
  induction k with
  | zero => intro n d h; simp [digitsLEPad] at h
  | succ k ih =>
    intro n d h
    simp only [digitsLEPad, List.mem_cons] at h
    rcases h with h | h
    · subst h; exact Nat.mod_lt _ (by norm_num)
    · exact ih _ _ h

theorem ofLE_digitsLEPad : ∀ k n, n < 10 ^ k → ofLE (digitsLEPad k n) = n := by
  intro k
  induction k with
  | zero => intro n h; simp only [pow_zero, Nat.lt_one_iff] at h; subst h; rfl
  | succ k ih =>
    intro n h
    have hq : n / 10 < 10 ^ k := by
      rw [Nat.div_lt_iff_lt_mul (by norm_num)]
      calc n < 10 ^ (k + 1) := h
        _ = 10 ^ k * 10 := by ring
    simp only [digitsLEPad, ofLE_cons, ih (n / 10) hq]
    omega

theorem digitsLEPad_length : ∀ k n, (digitsLEPad k n).length = k := by
  intro k
  induction k with
  | zero => intro n; rfl
  | succ k ih => intro n; simp [digitsLEPad, ih]

theorem charVal_digitChar (d : Nat) (h : d < 10) : charVal (digitChar d) = d := by
  interval_cases d <;> rfl

theorem isDigitChar_digitChar (d : Nat) (h : d < 10) : isDigitChar (digitChar d) = true := by
  interval_cases d <;> rfl

theorem parseFold_map_digitChar :
    ∀ (l : List Nat) (acc : Nat), (∀ d ∈ l, d < 10) →
      List.foldl (fun a c => a * 10 + charVal c) acc (l.map digitChar) =
        List.foldl (fun a d => a * 10 + d) acc l := by
  intro l
  induction l with
  | nil => intro acc _; rfl
  | cons d t ih =>
    intro acc h
    simp only [List.map_cons, List.foldl_cons]
    rw [charVal_digitChar d (h d (by simp))]
    exact ih _ fun x hx => h x (by simp [hx])

theorem foldl_val_reverse :
    ∀ (l : List Nat) (acc : Nat),
      List.foldl (fun a d => a * 10 + d) acc l.reverse = acc * 10 ^ l.length + ofLE l := by
  intro l
  induction l with
  | nil => intro acc; simp [ofLE]
  | cons d t ih =>
    intro acc
    simp only [List.reverse_cons, List.foldl_append, List.foldl_cons, List.foldl_nil, ih,
      ofLE_cons, List.length_cons]
    ring

theorem parseFold_natToChars (n : Nat) : parseFold (natToChars n) = n := by
  by_cases hn : n = 0
  · subst hn; rfl
  · simp only [natToChars, if_neg hn, natDigits, parseFold]
    rw [show ((digitsLE n n).reverse.map digitChar) = ((digitsLE n n).map digitChar).reverse by
      simp [List.map_reverse]]
    rw [show ((digitsLE n n).map digitChar).reverse = ((digitsLE n n).reverse).map digitChar by
      simp [List.map_reverse]]
    rw [parseFold_map_digitChar _ 0 fun d hd => digitsLE_lt_ten _ _ _ (List.mem_reverse.mp hd)]
    rw [foldl_val_reverse]
    simp [ofLE_digitsLE n n le_rfl]

theorem allDigits_natToChars (n : Nat) : allDigits (natToChars n) = true := by
  by_cases hn : n = 0
  · subst hn; rfl
  · simp only [natToChars, if_neg hn, allDigits, List.all_eq_true]
    intro c hc
    simp only [List.mem_map] at hc
    obtain ⟨d, hd, rfl⟩ := hc
    exact isDigitChar_digitChar d (digitsLE_lt_ten _ _ _ (List.mem_reverse.mp hd))

theorem natToChars_ne_nil (n : Nat) : natToChars n ≠ [] := by
  by_cases hn : n = 0
  · subst hn; simp [natToChars]
  · cases n with
    | zero => exact absurd rfl hn
    | succ m => simp [natToChars, natDigits, digitsLE]

/-! ## Splitting lemmas -/

theorem splitCharList_ne_nil (sep : Char) : ∀ l, splitCharList sep l ≠ [] := by
  intro l
  induction l with
  | nil => simp [splitCharList]
  | cons c t ih =>
    simp only [splitCharList]
    by_cases h : c = sep
    · simp [h]
    · simp only [if_neg h]
      cases hr : splitCharList sep t with
      | nil => simp
      | cons a b => simp

theorem splitCharList_no_sep (sep : Char) :
    ∀ l piece, piece ∈ splitCharList sep l → sep ∉ piece := by
  intro l
  induction l with
  | nil =>
    intro piece h
    simp only [splitCharList, List.mem_singleton] at h
    subst h; simp
  | cons c t ih =>
    intro piece h
    simp only [splitCharList] at h
    by_cases hc : c = sep
    · rw [if_pos hc] at h
      rcases List.mem_cons.mp h with h | h
      · subst h; simp
      · exact ih _ h
    · rw [if_neg hc] at h
      cases hr : splitCharList sep t with
      | nil => exact absurd hr (splitCharList_ne_nil sep t)
      | cons a b =>
        rw [hr] at h
        rcases List.mem_cons.mp h with h | h
        · subst h
          intro hmem
          rcases List.mem_cons.mp hmem with h | h
          · exact hc h.symm
          · exact ih a (by rw [hr]; exact List.mem_cons_self a b) h
        · exact ih piece (by rw [hr]; exact List.mem_cons_of_mem _ h)

theorem splitCharList_single (sep : Char) :
    ∀ l, (∀ c ∈ l, c ≠ sep) → splitCharList sep l = [l] := by
  intro l
  induction l with
  | nil => intro; rfl
  | cons c t ih =>
    intro h
    have hc : ¬c = sep := h c (by simp)
    simp only [splitCharList, if_neg hc]
    rw [ih fun x hx => h x (by simp [hx])]

theorem splitCharList_pair (sep : Char) :
    ∀ a b, (∀ c ∈ a, c ≠ sep) →
      splitCharList sep (a ++ sep :: b) = a :: splitCharList sep b := by
  intro a
  induction a with
  | nil => intro b _; simp [splitCharList]
  | cons c t ih =>
    intro b h
    have hc : ¬c = sep := h c (by simp)
    simp only [List.cons_append, splitCharList, if_neg hc, List.append_eq]
    rw [ih b fun x hx => h x (by simp [hx])]

theorem splitCharList_two (sep : Char) (a b : List Char)
    (ha : ∀ c ∈ a, c ≠ sep) (hb : ∀ c ∈ b, c ≠ sep) :
    splitCharList sep (a ++ sep :: b) = [a, b] := by
  rw [splitCharList_pair sep a b ha, splitCharList_single sep b hb]

/-! ## Trailing-zero stripping -/

theorem allDigits_mem {l : List Char} {c : Char} (h : allDigits l = true) (hc : c ∈ l) :
    isDigitChar c = true := by
  simp only [allDigits, List.all_eq_true] at h
  exact h c hc

theorem digit_ne_dot {c : Char} (hc : isDigitChar c = true) : c ≠ '.' := by
  intro he; subst he; exact absurd hc (by decide)

theorem digit_ne_dash {c : Char} (hc : isDigitChar c = true) : c ≠ '-' := by
  intro he; subst he; exact absurd hc (by decide)

theorem stripTrailingZeros_decomp (l : List Char) :
    ∃ t, l = stripTrailingZeros l ++ List.replicate t '0' := by
  refine ⟨(l.reverse.takeWhile (fun c => c = '0')).length, ?_⟩
  have h1 : l.reverse.takeWhile (fun c => c = '0') ++ l.reverse.dropWhile (fun c => c = '0') =
      l.reverse := List.takeWhile_append_dropWhile _ _
  have h2 : l = (l.reverse.dropWhile (fun c => c = '0')).reverse ++
      (l.reverse.takeWhile (fun c => c = '0')).reverse := by
    conv_lhs => rw [← List.reverse_reverse l, ← h1]
    rw [List.reverse_append]
  have h3 : (l.reverse.takeWhile (fun c => c = '0')).reverse =
      List.replicate (l.reverse.takeWhile (fun c => c = '0')).length '0' := by
    rw [show (l.reverse.takeWhile (fun c => c = '0')).length =
        (l.reverse.takeWhile (fun c => c = '0')).reverse.length by simp]
    rw [List.eq_replicate_length]
    intro b hb
    have hb2 := List.mem_reverse.mp hb
    have := List.mem_takeWhile_imp hb2
    simpa using this
  rw [stripTrailingZeros]
  conv_lhs => rw [h2]
  rw [← h3]

theorem stripTrailingZeros_allDigits {l : List Char} (h : allDigits l = true) :
    allDigits (stripTrailingZeros l) = true := by
  obtain ⟨t, hd⟩ := stripTrailingZeros_decomp l
  rw [hd, allDigits, List.all_append] at h
  exact (Bool.and_eq_true_iff.mp h).1

theorem parseFold_append_one (l : List Char) (c : Char) :
    parseFold (l ++ [c]) = parseFold l * 10 + charVal c := by
  simp [parseFold, List.foldl_append]

theorem parseFold_append_replicate_zero (l : List Char) (t : Nat) :
    parseFold (l ++ List.replicate t '0') = parseFold l * 10 ^ t := by
  induction t with
  | zero => simp
  | succ t ih =>
    rw [List.replicate_succ', ← List.append_assoc, parseFold_append_one, ih]
    have h0 : charVal '0' = 0 := rfl
    rw [h0, pow_succ]
    ring

theorem strip_empty_parseFold {l : List Char} (h : stripTrailingZeros l = []) :
    parseFold l = 0 := by
  obtain ⟨t, hd⟩ := stripTrailingZeros_decomp l
  rw [h, List.nil_append] at hd
  rw [hd]
  have := parseFold_append_replicate_zero [] t
  simpa [parseFold] using this

theorem strip_val (l : List Char) :
    ((parseFold l : ℚ)) / 10 ^ l.length =
      ((parseFold (stripTrailingZeros l) : ℚ)) / 10 ^ (stripTrailingZeros l).length := by
  obtain ⟨t, hd⟩ := stripTrailingZeros_decomp l
  conv_lhs => rw [hd, parseFold_append_replicate_zero, List.length_append,
    List.length_replicate]
  push_cast
  rw [pow_add]
  have h1 : ((10 : ℚ)) ^ t ≠ 0 := by positivity
  have h2 : ((10 : ℚ)) ^ (stripTrailingZeros l).length ≠ 0 := by positivity
  field_simp
  ring

/-! ## Decimal denominators -/

theorem pow_pCount_mul_stripP (p : Nat) : ∀ fuel n, p ^ pCount p fuel n * stripP p fuel n = n := by
  intro fuel
  induction fuel with
  | zero => intro n; simp [pCount, stripP]
  | succ f ih =>
    intro n
    by_cases h : n ≠ 0 ∧ n % p = 0
    · simp only [pCount, stripP, if_pos h]
      have hdvd : p ∣ n := Nat.dvd_of_mod_eq_zero h.2
      calc p ^ (pCount p f (n / p) + 1) * stripP p f (n / p)
          = p * (p ^ pCount p f (n / p) * stripP p f (n / p)) := by ring
        _ = p * (n / p) := by rw [ih]
        _ = n := Nat.mul_div_cancel' hdvd
    · simp [pCount, stripP, if_neg h]

theorem den_dvd_pow10 (d : Nat) (h : rest25 d = 1) : d ∣ 10 ^ decExp d := by
  have h2 : 2 ^ twoAdic d * rest2 d = d := pow_pCount_mul_stripP 2 d d
  have h5 : 5 ^ fiveAdic d * rest25 d = rest2 d := pow_pCount_mul_stripP 5 (rest2 d) (rest2 d)
  rw [h, mul_one] at h5
  obtain ⟨a, ha⟩ : ∃ x, x = twoAdic d := ⟨_, rfl⟩
  obtain ⟨b, hb⟩ : ∃ x, x = fiveAdic d := ⟨_, rfl⟩
  rw [← ha] at h2
  rw [← hb] at h5
  have hd : d = 2 ^ a * 5 ^ b := by rw [← h2, ← h5]
  refine ⟨2 ^ b * 5 ^ a, ?_⟩
  rw [decExp, ← ha, ← hb, hd]
  rw [show (10 : Nat) = 2 * 5 from rfl, mul_pow, pow_add, pow_add]
  ring

/-! ## Round-trip of the decimal codec -/

theorem parseNonnegQ_eq_one {l ip : List Char} (h : splitCharList '.' l = [ip]) :
    parseNonnegQ l = if ip ≠ [] ∧ allDigits ip then some ((parseFold ip : ℚ)) else none := by
  rw [parseNonnegQ, h]

theorem parseNonnegQ_eq_two {l ip fp : List Char} (h : splitCharList '.' l = [ip, fp]) :
    parseNonnegQ l =
      if (ip ≠ [] ∨ fp ≠ []) ∧ allDigits ip ∧ allDigits fp then
        some ((parseFold ip : ℚ) + (parseFold fp : ℚ) / (10 : ℚ) ^ fp.length)
      else none := by
  rw [parseNonnegQ, h]

theorem parseNonnegQ_assemble (ip F : List Char) (hip : allDigits ip = true) (hne : ip ≠ [])
    (hF : allDigits F = true) :
    parseNonnegQ (if stripTrailingZeros F = [] then ip else ip ++ '.' :: stripTrailingZeros F) =
      some ((parseFold ip : ℚ) + (parseFold F : ℚ) / 10 ^ F.length) := by
  by_cases hs : stripTrailingZeros F = []
  · rw [if_pos hs]
    have hval : parseFold F = 0 := strip_empty_parseFold hs
    rw [parseNonnegQ_eq_one (splitCharList_single '.' ip
      (fun c hc => digit_ne_dot (allDigits_mem hip hc)))]
    simp [hne, hip, hval]
  · rw [if_neg hs]
    have hsd : allDigits (stripTrailingZeros F) = true := stripTrailingZeros_allDigits hF
    rw [parseNonnegQ_eq_two (splitCharList_two '.' ip (stripTrailingZeros F)
      (fun c hc => digit_ne_dot (allDigits_mem hip hc))
      (fun c hc => digit_ne_dot (allDigits_mem hsd hc)))]
    rw [if_pos ⟨Or.inl hne, hip, hsd⟩]
    rw [← strip_val F]

theorem parseNonnegQ_fmtDecNonneg (q : ℚ) (h0 : 0 ≤ q) (hdec : isDecimal q = true) :
    parseNonnegQ (fmtDecNonnegChars q) = some q := by
  have hden : q.den ∣ 10 ^ decExp q.den :=
    den_dvd_pow10 q.den (by simpa [isDecimal] using hdec)
  have hdm : q.den * (10 ^ decExp q.den / q.den) = 10 ^ decExp q.den :=
    Nat.mul_div_cancel' hden
  have hden0 : ((q.den : ℚ)) ≠ 0 := Nat.cast_ne_zero.mpr q.den_nz
  -- the scaled integer and its parts
  set k := decExp q.den with hk
  set m := 10 ^ k / q.den with hm
  set n := q.num.toNat * m with hn
  have hqd : (q.num : ℚ) = q * (q.den : ℚ) := (div_eq_iff hden0).mp (Rat.num_div_den q)
  have hq10 : ((n : ℚ)) = q * 10 ^ k := by
    have hnn : ((q.num.toNat : ℚ)) = ((q.num : ℤ) : ℚ) := by
      exact_mod_cast congrArg (fun z : ℤ => (z : ℚ))
        (Int.toNat_of_nonneg (Rat.num_nonneg.mpr h0))
    have h4 : ((q.den : ℚ)) * ((m : ℚ)) = (10 : ℚ) ^ k := by
      exact_mod_cast congrArg (fun x : Nat => (x : ℚ)) hdm
    calc ((n : ℚ)) = ((q.num.toNat : ℚ)) * ((m : ℚ)) := by rw [hn]; push_cast; ring
      _ = (q.num : ℚ) * ((m : ℚ)) := by rw [hnn]
      _ = q * (((q.den : ℚ)) * ((m : ℚ))) := by rw [hqd]; ring
      _ = q * 10 ^ k := by rw [h4]
  have hsplit : 10 ^ k * (n / 10 ^ k) + n % 10 ^ k = n := Nat.div_add_mod n (10 ^ k)
  have hfp_lt : n % 10 ^ k < 10 ^ k := Nat.mod_lt _ (by positivity)
  -- the fraction character block
  set F := ((digitsLEPad k (n % 10 ^ k)).map digitChar).reverse with hF
  have hFdig : allDigits F = true := by
    rw [allDigits, List.all_eq_true]
    intro c hc
    rw [hF, List.mem_reverse, List.mem_map] at hc
    obtain ⟨d, hd2, rfl⟩ := hc
    exact isDigitChar_digitChar d (digitsLEPad_lt_ten _ _ _ hd2)
  have hFlen : F.length = k := by simp [hF, digitsLEPad_length]
  have hFval : parseFold F = n % 10 ^ k := by
    rw [hF, ← List.map_reverse, parseFold,
      parseFold_map_digitChar _ 0
        (fun d hd2 => digitsLEPad_lt_ten _ _ _ (List.mem_reverse.mp hd2)),
      foldl_val_reverse]
    simp [ofLE_digitsLEPad _ _ hfp_lt]
  -- assemble
  have hgoal : fmtDecNonnegChars q =
      (if stripTrailingZeros F = [] then natToChars (n / 10 ^ k)
       else natToChars (n / 10 ^ k) ++ '.' :: stripTrailingZeros F) := by
    rw [fmtDecNonnegChars]
  rw [hgoal, parseNonnegQ_assemble _ _ (allDigits_natToChars _) (natToChars_ne_nil _) hFdig,
    parseFold_natToChars, hFval, hFlen]
  congr 1
  have hpk : ((10 : ℚ)) ^ k ≠ 0 := by positivity
  have hcast : ((n : ℚ)) = ((10 : ℚ)) ^ k * ((n / 10 ^ k : ℕ) : ℚ) + (((n % 10 ^ k : ℕ)) : ℚ) := by
    exact_mod_cast congrArg (fun x : Nat => (x : ℚ)) hsplit.symm
  have : q = ((n : ℚ)) / 10 ^ k := by
    rw [hq10]
    field_simp
  rw [this, hcast]
  field_simp
  ring

theorem natToChars_head (m : Nat) :
    ∃ c rest, natToChars m = c :: rest ∧ isDigitChar c = true := by
  cases h : natToChars m with
  | nil => exact absurd h (natToChars_ne_nil m)
  | cons c rest =>
    refine ⟨c, rest, rfl, allDigits_mem (allDigits_natToChars m) ?_⟩
    rw [h]
    exact List.mem_cons_self c rest

theorem fmtDecNonnegChars_head (q : ℚ) :
    ∃ c rest, fmtDecNonnegChars q = c :: rest ∧ isDigitChar c = true := by
  rw [fmtDecNonnegChars]
  obtain ⟨c, rest, hc, hd⟩ := natToChars_head
    (q.num.toNat * (10 ^ decExp q.den / q.den) / 10 ^ decExp q.den)
  by_cases hs : stripTrailingZeros
      (((digitsLEPad (decExp q.den)
          (q.num.toNat * (10 ^ decExp q.den / q.den) % 10 ^ decExp q.den)).map
        digitChar).reverse) = []
  · rw [if_pos hs]
    exact ⟨c, rest, hc, hd⟩
  · rw [if_neg hs]
    exact ⟨c, rest ++ '.' :: _, by rw [hc]; rfl, hd⟩

theorem isDecimal_neg (q : ℚ) (h : isDecimal q = true) : isDecimal (-q) = true := by
  have hden : (-q).den = q.den := rfl
  rw [isDecimal, hden]
  rw [isDecimal] at h
  exact h

theorem parseF64_fmtF64 (q : ℚ) (hdec : isDecimal q = true) : parseF64 (fmtF64 q) = some q := by
  by_cases hq : q < 0
  · rw [fmtF64, if_pos hq]
    show ((parseNonnegQ (fmtDecNonnegChars (-q))).map fun x => -x) = some q
    rw [parseNonnegQ_fmtDecNonneg (-q) (by linarith) (isDecimal_neg q hdec)]
    simp
  · rw [fmtF64, if_neg hq]
    obtain ⟨c, rest, hcr, hdg⟩ := fmtDecNonnegChars_head q
    rw [hcr]
    show (if c = '-' then (parseNonnegQ rest).map fun x => -x else parseNonnegQ (c :: rest)) =
      some q
    rw [if_neg (digit_ne_dash hdg), ← hcr,
      parseNonnegQ_fmtDecNonneg q (not_lt.mp hq) hdec]

theorem parseI32_fmtInt (v : Int) (h1 : -2147483648 ≤ v) (h2 : v ≤ 2147483647) :
    parseI32 (fmtInt v) = some v := by
  by_cases hv : v < 0
  · rw [fmtInt, if_pos hv]
    have hpc : parseIntChars ('-' :: natToChars v.natAbs) =
        some (-(parseFold (natToChars v.natAbs) : Int)) := by
      show (if ('-' : Char) = '-' then
          if natToChars v.natAbs ≠ [] ∧ allDigits (natToChars v.natAbs) then
            some (-(parseFold (natToChars v.natAbs) : Int)) else none
        else if allDigits ('-' :: natToChars v.natAbs) then
          some ((parseFold ('-' :: natToChars v.natAbs) : Int)) else none) =
        some (-(parseFold (natToChars v.natAbs) : Int))
      rw [if_pos rfl, if_pos ⟨natToChars_ne_nil _, allDigits_natToChars _⟩]
    have hval : (-(parseFold (natToChars v.natAbs) : Int)) = v := by
      rw [parseFold_natToChars, Int.ofNat_natAbs_of_nonpos (by linarith)]
      ring
    show (match parseIntChars ('-' :: natToChars v.natAbs) with
      | some w => if -2147483648 ≤ w ∧ w ≤ 2147483647 then some w else none
      | none => none) = some v
    rw [hpc, hval]
    show (if -2147483648 ≤ v ∧ v ≤ 2147483647 then some v else none) = some v
    rw [if_pos ⟨h1, h2⟩]
  · rw [fmtInt, if_neg hv]
    obtain ⟨c, rest, hcr, hdg⟩ := natToChars_head v.natAbs
    have hpc : parseIntChars (natToChars v.natAbs) =
        some ((parseFold (natToChars v.natAbs) : Int)) := by
      rw [hcr]
      show (if c = '-' then
          if rest ≠ [] ∧ allDigits rest then some (-(parseFold rest : Int)) else none
        else if allDigits (c :: rest) then some ((parseFold (c :: rest) : Int)) else none) =
        some ((parseFold (c :: rest) : Int))
      rw [if_neg (digit_ne_dash hdg), if_pos (hcr ▸ allDigits_natToChars v.natAbs)]
    have hval : ((parseFold (natToChars v.natAbs) : Int)) = v := by
      rw [parseFold_natToChars, Int.natAbs_of_nonneg (by linarith)]
    show (match parseIntChars (natToChars v.natAbs) with
      | some w => if -2147483648 ≤ w ∧ w ≤ 2147483647 then some w else none
      | none => none) = some v
    rw [hpc, hval]
    show (if -2147483648 ≤ v ∧ v ≤ 2147483647 then some v else none) = some v
    rw [if_pos ⟨h1, h2⟩]

/-! ## Tracking the query loop of `from_path` -/

/-- The last value bound to `key` in an association list (a `HashMap`
collected from repeated inserts keeps the last one). -/
def lastLookup (key : String) (q : List (String × String)) : Option String :=
  q.reverse.lookup key

theorem lookup_append {α β : Type} [BEq α] (k : α) (l1 l2 : List (α × β)) :
    (l1 ++ l2).lookup k =
      match l1.lookup k with
      | some v => some v
      | none => l2.lookup k := by
  induction l1 with
  | nil => simp
  | cons a t ih =>
    rcases a with ⟨a1, b1⟩
    cases h : k == a1 <;> simp [List.lookup, h, ih]

theorem lastLookup_nil (key : String) : lastLookup key [] = none := rfl

theorem lastLookup_cons (key k v : String) (t : List (String × String)) :
    lastLookup key ((k, v) :: t) =
      (match lastLookup key t with
       | some w => some w
       | none => if k = key then some v else none) := by
  rw [lastLookup, List.reverse_cons, lookup_append]
  have hone : List.lookup key [(k, v)] = if k = key then some v else none := by
    by_cases hk : k = key
    · subst hk; simp [List.lookup]
    · have hb : (key == k) = false := by
        rw [beq_eq_false_iff_ne]
        exact fun e => hk e.symm
      simp [List.lookup, hb, hk]
  cases h : (t.reverse).lookup key <;> simp [lastLookup, h, hone]

theorem foldl_applyParam_track {α : Type} (g : Params → α) (key : String)
    (upd : String → α)
    (hg : ∀ acc k v, g (applyParam acc (k, v)) = if k = key then upd v else g acc) :
    ∀ (q : List (String × String)) (acc : Params),
      g (q.foldl applyParam acc) =
        (match lastLookup key q with
         | some v => upd v
         | none => g acc) := by
  intro q
  induction q with
  | nil => intro acc; rfl
  | cons kv t ih =>
    intro acc
    rcases kv with ⟨k, v⟩
    rw [List.foldl_cons, ih (applyParam acc (k, v)), hg acc k v, lastLookup_cons]
    cases h : lastLookup key t <;> by_cases hk : k = key <;> simp [h, hk]

theorem applyParam_key (acc : Params) (k v : String) :
    (applyParam acc (k, v)).key = acc.key := by
  simp only [applyParam]
  by_cases h1 : k = "encoded"
  · rw [if_pos h1]
  rw [if_neg h1]
  by_cases h2 : k = "format"
  · rw [if_pos h2]
  rw [if_neg h2]
  by_cases h3 : k = "codec"
  · rw [if_pos h3]
  rw [if_neg h3]
  by_cases h4 : k = "sample_rate"
  · rw [if_pos h4]
  rw [if_neg h4]
  by_cases h5 : k = "channels"
  · rw [if_pos h5]
  rw [if_neg h5]
  by_cases h6 : k = "bit_rate"
  · rw [if_pos h6]
  rw [if_neg h6]
  by_cases h7 : k = "bit_depth"
  · rw [if_pos h7]
  rw [if_neg h7]
  by_cases h8 : k = "quality"
  · rw [if_pos h8]
  rw [if_neg h8]
  by_cases h9 : k = "compression_level"
  · rw [if_pos h9]
  rw [if_neg h9]
  by_cases h10 : k = "start_time"
  · rw [if_pos h10]
  rw [if_neg h10]
  by_cases h11 : k = "duration"
  · rw [if_pos h11]
  rw [if_neg h11]
  by_cases h12 : k = "speed"
  · rw [if_pos h12]
  rw [if_neg h12]
  by_cases h13 : k = "reverse"
  · rw [if_pos h13]
  rw [if_neg h13]
  by_cases h14 : k = "volume"
  · rw [if_pos h14]
  rw [if_neg h14]
  by_cases h15 : k = "normalize"
  · rw [if_pos h15]
  rw [if_neg h15]
  by_cases h16 : k = "normalize_level"
  · rw [if_pos h16]
  rw [if_neg h16]
  by_cases h17 : k = "lowpass"
  · rw [if_pos h17]
  rw [if_neg h17]
  by_cases h18 : k = "highpass"
  · rw [if_pos h18]
  rw [if_neg h18]
  by_cases h19 : k = "bandpass"
  · rw [if_pos h19]
  rw [if_neg h19]
  by_cases h20 : k = "bass"
  · rw [if_pos h20]
  rw [if_neg h20]
  by_cases h21 : k = "treble"
  · rw [if_pos h21]
  rw [if_neg h21]
  by_cases h22 : k = "echo"
  · rw [if_pos h22]
  rw [if_neg h22]
  by_cases h23 : k = "chorus"
  · rw [if_pos h23]
  rw [if_neg h23]
  by_cases h24 : k = "flanger"
  · rw [if_pos h24]
  rw [if_neg h24]
  by_cases h25 : k = "phaser"
  · rw [if_pos h25]
  rw [if_neg h25]
  by_cases h26 : k = "tremolo"
  · rw [if_pos h26]
  rw [if_neg h26]
  by_cases h27 : k = "compressor"
  · rw [if_pos h27]
  rw [if_neg h27]
  by_cases h28 : k = "noise_reduction"
  · rw [if_pos h28]
  rw [if_neg h28]
  by_cases h29 : k = "fade_in"
  · rw [if_pos h29]
  rw [if_neg h29]
  by_cases h30 : k = "fade_out"
  · rw [if_pos h30]
  rw [if_neg h30]
  by_cases h31 : k = "cross_fade"
  · rw [if_pos h31]
  rw [if_neg h31]
  by_cases g1 : strStarts "tag_" k
  · rw [if_pos g1]
  rw [if_neg g1]
  by_cases g2 : strStarts "filter_" k
  · rw [if_pos g2]
  rw [if_neg g2]
  by_cases g3 : strStarts "option_" k
  · rw [if_pos g3]
  rw [if_neg g3]

theorem applyParam_format (acc : Params) (k v : String) :
    (applyParam acc (k, v)).format = if k = "format" then some ((parseAudioFormat v).getD .mp3) else acc.format := by
  simp only [applyParam]
  by_cases h1 : k = "encoded"
  · rw [if_pos h1, if_neg (by rw [h1]; decide)]
  rw [if_neg h1]
  by_cases h2 : k = "format"
  · rw [if_pos h2, if_pos h2]
  rw [if_neg h2]
  by_cases h3 : k = "codec"
  · rw [if_pos h3, if_neg h2]
  rw [if_neg h3]
  by_cases h4 : k = "sample_rate"
  · rw [if_pos h4, if_neg h2]
  rw [if_neg h4]
  by_cases h5 : k = "channels"
  · rw [if_pos h5, if_neg h2]
  rw [if_neg h5]
  by_cases h6 : k = "bit_rate"
  · rw [if_pos h6, if_neg h2]
  rw [if_neg h6]
  by_cases h7 : k = "bit_depth"
  · rw [if_pos h7, if_neg h2]
  rw [if_neg h7]
  by_cases h8 : k = "quality"
  · rw [if_pos h8, if_neg h2]
  rw [if_neg h8]
  by_cases h9 : k = "compression_level"
  · rw [if_pos h9, if_neg h2]
  rw [if_neg h9]
  by_cases h10 : k = "start_time"
  · rw [if_pos h10, if_neg h2]
  rw [if_neg h10]
  by_cases h11 : k = "duration"
  · rw [if_pos h11, if_neg h2]
  rw [if_neg h11]
  by_cases h12 : k = "speed"
  · rw [if_pos h12, if_neg h2]
  rw [if_neg h12]
  by_cases h13 : k = "reverse"
  · rw [if_pos h13, if_neg h2]
  rw [if_neg h13]
  by_cases h14 : k = "volume"
  · rw [if_pos h14, if_neg h2]
  rw [if_neg h14]
  by_cases h15 : k = "normalize"
  · rw [if_pos h15, if_neg h2]
  rw [if_neg h15]
  by_cases h16 : k = "normalize_level"
  · rw [if_pos h16, if_neg h2]
  rw [if_neg h16]
  by_cases h17 : k = "lowpass"
  · rw [if_pos h17, if_neg h2]
  rw [if_neg h17]
  by_cases h18 : k = "highpass"
  · rw [if_pos h18, if_neg h2]
  rw [if_neg h18]
  by_cases h19 : k = "bandpass"
  · rw [if_pos h19, if_neg h2]
  rw [if_neg h19]
  by_cases h20 : k = "bass"
  · rw [if_pos h20, if_neg h2]
  rw [if_neg h20]
  by_cases h21 : k = "treble"
  · rw [if_pos h21, if_neg h2]
  rw [if_neg h21]
  by_cases h22 : k = "echo"
  · rw [if_pos h22, if_neg h2]
  rw [if_neg h22]
  by_cases h23 : k = "chorus"
  · rw [if_pos h23, if_neg h2]
  rw [if_neg h23]
  by_cases h24 : k = "flanger"
  · rw [if_pos h24, if_neg h2]
  rw [if_neg h24]
  by_cases h25 : k = "phaser"
  · rw [if_pos h25, if_neg h2]
  rw [if_neg h25]
  by_cases h26 : k = "tremolo"
  · rw [if_pos h26, if_neg h2]
  rw [if_neg h26]
  by_cases h27 : k = "compressor"
  · rw [if_pos h27, if_neg h2]
  rw [if_neg h27]
  by_cases h28 : k = "noise_reduction"
  · rw [if_pos h28, if_neg h2]
  rw [if_neg h28]
  by_cases h29 : k = "fade_in"
  · rw [if_pos h29, if_neg h2]
  rw [if_neg h29]
  by_cases h30 : k = "fade_out"
  · rw [if_pos h30, if_neg h2]
  rw [if_neg h30]
  by_cases h31 : k = "cross_fade"
  · rw [if_pos h31, if_neg h2]
  rw [if_neg h31]
  by_cases g1 : strStarts "tag_" k
  · rw [if_pos g1, if_neg h2]
  rw [if_neg g1]
  by_cases g2 : strStarts "filter_" k
  · rw [if_pos g2, if_neg h2]
  rw [if_neg g2]
  by_cases g3 : strStarts "option_" k
  · rw [if_pos g3, if_neg h2]
  rw [if_neg g3]
  rw [if_neg h2]

theorem applyParam_speed (acc : Params) (k v : String) :
    (applyParam acc (k, v)).speed = if k = "speed" then parseF64 v else acc.speed := by
  simp only [applyParam]
  by_cases h1 : k = "encoded"
  · rw [if_pos h1, if_neg (by rw [h1]; decide)]
  rw [if_neg h1]
  by_cases h2 : k = "format"
  · rw [if_pos h2, if_neg (by rw [h2]; decide)]
  rw [if_neg h2]
  by_cases h3 : k = "codec"
  · rw [if_pos h3, if_neg (by rw [h3]; decide)]
  rw [if_neg h3]
  by_cases h4 : k = "sample_rate"
  · rw [if_pos h4, if_neg (by rw [h4]; decide)]
  rw [if_neg h4]
  by_cases h5 : k = "channels"
  · rw [if_pos h5, if_neg (by rw [h5]; decide)]
  rw [if_neg h5]
  by_cases h6 : k = "bit_rate"
  · rw [if_pos h6, if_neg (by rw [h6]; decide)]
  rw [if_neg h6]
  by_cases h7 : k = "bit_depth"
  · rw [if_pos h7, if_neg (by rw [h7]; decide)]
  rw [if_neg h7]
  by_cases h8 : k = "quality"
  · rw [if_pos h8, if_neg (by rw [h8]; decide)]
  rw [if_neg h8]
  by_cases h9 : k = "compression_level"
  · rw [if_pos h9, if_neg (by rw [h9]; decide)]
  rw [if_neg h9]
  by_cases h10 : k = "start_time"
  · rw [if_pos h10, if_neg (by rw [h10]; decide)]
  rw [if_neg h10]
  by_cases h11 : k = "duration"
  · rw [if_pos h11, if_neg (by rw [h11]; decide)]
  rw [if_neg h11]
  by_cases h12 : k = "speed"
  · rw [if_pos h12, if_pos h12]
  rw [if_neg h12]
  by_cases h13 : k = "reverse"
  · rw [if_pos h13, if_neg h12]
  rw [if_neg h13]
  by_cases h14 : k = "volume"
  · rw [if_pos h14, if_neg h12]
  rw [if_neg h14]
  by_cases h15 : k = "normalize"
  · rw [if_pos h15, if_neg h12]
  rw [if_neg h15]
  by_cases h16 : k = "normalize_level"
  · rw [if_pos h16, if_neg h12]
  rw [if_neg h16]
  by_cases h17 : k = "lowpass"
  · rw [if_pos h17, if_neg h12]
  rw [if_neg h17]
  by_cases h18 : k = "highpass"
  · rw [if_pos h18, if_neg h12]
  rw [if_neg h18]
  by_cases h19 : k = "bandpass"
  · rw [if_pos h19, if_neg h12]
  rw [if_neg h19]
  by_cases h20 : k = "bass"
  · rw [if_pos h20, if_neg h12]
  rw [if_neg h20]
  by_cases h21 : k = "treble"
  · rw [if_pos h21, if_neg h12]
  rw [if_neg h21]
  by_cases h22 : k = "echo"
  · rw [if_pos h22, if_neg h12]
  rw [if_neg h22]
  by_cases h23 : k = "chorus"
  · rw [if_pos h23, if_neg h12]
  rw [if_neg h23]
  by_cases h24 : k = "flanger"
  · rw [if_pos h24, if_neg h12]
  rw [if_neg h24]
  by_cases h25 : k = "phaser"
  · rw [if_pos h25, if_neg h12]
  rw [if_neg h25]
  by_cases h26 : k = "tremolo"
  · rw [if_pos h26, if_neg h12]
  rw [if_neg h26]
  by_cases h27 : k = "compressor"
  · rw [if_pos h27, if_neg h12]
  rw [if_neg h27]
  by_cases h28 : k = "noise_reduction"
  · rw [if_pos h28, if_neg h12]
  rw [if_neg h28]
  by_cases h29 : k = "fade_in"
  · rw [if_pos h29, if_neg h12]
  rw [if_neg h29]
  by_cases h30 : k = "fade_out"
  · rw [if_pos h30, if_neg h12]
  rw [if_neg h30]
  by_cases h31 : k = "cross_fade"
  · rw [if_pos h31, if_neg h12]
  rw [if_neg h31]
  by_cases g1 : strStarts "tag_" k
  · rw [if_pos g1, if_neg h12]
  rw [if_neg g1]
  by_cases g2 : strStarts "filter_" k
  · rw [if_pos g2, if_neg h12]
  rw [if_neg g2]
  by_cases g3 : strStarts "option_" k
  · rw [if_pos g3, if_neg h12]
  rw [if_neg g3]
  rw [if_neg h12]

theorem foldl_applyParam_key (q : List (String × String)) (acc : Params) :
    (q.foldl applyParam acc).key = acc.key := by
  induction q generalizing acc with
  | nil => rfl
  | cons kv t ih => rw [List.foldl_cons, ih, applyParam_key]


/-! ## Structure of `from_path` -/

/-- The last slash-separated segment of a path: what `from_path` assigns
as the audio key. -/
def lastSegment (s : String) : String := ⟨(splitCharList '/' s.data).getLastD []⟩

theorem splitStr_getLast? (sep : Char) (s : String) :
    (splitStr sep s).getLast? = some ⟨(splitCharList sep s.data).getLastD []⟩ := by
  rw [splitStr, List.getLast?_map]
  cases h : (splitCharList sep s.data).getLast? with
  | none => exact absurd (List.getLast?_eq_none_iff.mp h) (splitCharList_ne_nil sep s.data)
  | some x => rw [Option.map_some', List.getLastD_eq_getLast?, h]; rfl

theorem from_path_of_no_encoded (decode : String → Option Params) (path : String)
    (query : List (String × String)) (h : query.lookup "encoded" = none) :
    from_path decode path query =
      .ok (Params.merge_with { key := lastSegment path }
        (buildExplicit (lastSegment path) query)) := by
  rw [from_path, splitStr_getLast?, ← lastSegment, h]

theorem from_path_key (decode : String → Option Params) (path : String)
    (query : List (String × String)) (r : Params)
    (h : from_path decode path query = .ok r) : r.key = lastSegment path := by
  have hkey : ∀ b : Params,
      (Params.merge_with b (buildExplicit (lastSegment path) query)).key =
        if (buildExplicit (lastSegment path) query).key ≠ "" then
          (buildExplicit (lastSegment path) query).key
        else b.key := fun b => rfl
  have hbe : (buildExplicit (lastSegment path) query).key = lastSegment path := by
    rw [buildExplicit, foldl_applyParam_key]
  cases he : query.lookup "encoded" with
  | none =>
    rw [from_path_of_no_encoded decode path query he] at h
    cases h
    rw [hkey, hbe]
    by_cases hk : lastSegment path = "" <;> simp [hk]
  | some enc =>
    cases hd : decode enc with
    | none =>
      have hfp : from_path decode path query = .error "Failed to decode encoded params" := by
        simp only [from_path, splitStr_getLast?, he, hd]
      rw [hfp] at h
      cases h
    | some bp =>
      have hfp : from_path decode path query =
          .ok (Params.merge_with { bp with key := lastSegment path }
            (buildExplicit (lastSegment path) query)) := by
        simp only [from_path, splitStr_getLast?, he, hd, lastSegment]
      rw [hfp] at h
      cases h
      rw [hkey, hbe]
      by_cases hk : lastSegment path = "" <;> simp [hk]

theorem lastSegment_no_slash (s : String) : ∀ c ∈ (lastSegment s).data, c ≠ '/' := by
  intro c hc
  rw [lastSegment] at hc
  have hmem : (splitCharList '/' s.data).getLastD [] ∈ splitCharList '/' s.data := by
    cases h : (splitCharList '/' s.data).getLast? with
    | none => exact absurd (List.getLast?_eq_none_iff.mp h) (splitCharList_ne_nil '/' s.data)
    | some x =>
      rw [List.getLastD_eq_getLast?, h]
      exact List.mem_of_mem_getLast? h
  intro he
  subst he
  exact splitCharList_no_sep '/' s.data _ hmem hc

/-! ## Association-list insertion -/

theorem lookup_eq_none_of_keys {m : List (String × String)} {key : String}
    (h : ∀ kv ∈ m, kv.1 ≠ key) : m.lookup key = none := by
  induction m with
  | nil => rfl
  | cons a t ih =>
    rcases a with ⟨a1, b1⟩
    have ha : a1 ≠ key := h (a1, b1) (by simp)
    have hb : (key == a1) = false := by
      rw [beq_eq_false_iff_ne]
      exact fun e => ha e.symm
    simp only [List.lookup, hb]
    exact ih fun kv hkv => h kv (by simp [hkv])

theorem insertA_notmem (m : List (String × String)) (k v : String)
    (h : ∀ kv ∈ m, kv.1 ≠ k) : insertA m k v = m ++ [(k, v)] := by
  induction m with
  | nil => rfl
  | cons a t ih =>
    rcases a with ⟨a1, b1⟩
    have ha : a1 ≠ k := h (a1, b1) (by simp)
    simp only [insertA, if_neg ha, List.cons_append, List.cons.injEq, true_and]
    exact ih fun kv hkv => h kv (by simp [hkv])

theorem foldl_insertA_append (ts : List (String × String)) :
    ∀ acc, (∀ kv ∈ ts, ∀ kv2 ∈ acc, kv2.1 ≠ kv.1) → (ts.map Prod.fst).Nodup →
      ts.foldl (fun m kv => insertA m kv.1 kv.2) acc = acc ++ ts := by
  induction ts with
  | nil => intro acc _ _; simp
  | cons a t ih =>
    intro acc hdisj hnd
    rcases a with ⟨k, v⟩
    have hnd2 : (k :: t.map Prod.fst).Nodup := by simpa using hnd
    have hhd : k ∉ t.map Prod.fst := (List.nodup_cons.mp hnd2).1
    rw [List.foldl_cons]
    rw [show insertA acc k v = acc ++ [(k, v)] from
      insertA_notmem acc k v fun kv hkv => hdisj (k, v) (by simp) kv hkv]
    rw [ih (acc ++ [(k, v)])
      (fun kv hkv kv2 hkv2 => by
        rcases List.mem_append.mp hkv2 with h2 | h2
        · exact hdisj kv (by simp [hkv]) kv2 h2
        · have hkv2 : kv2 = (k, v) := by simpa using h2
          subst hkv2
          intro he
          exact hhd (by rw [show k = kv.1 from he]; exact List.mem_map_of_mem Prod.fst hkv))
      (List.nodup_cons.mp hnd2).2]
    simp

theorem insertA_fold_eq (ts : List (String × String))
    (hnd : (ts.map Prod.fst).Nodup) :
    ts.foldl (fun m kv => insertA m kv.1 kv.2) [] = ts := by
  have := foldl_insertA_append ts [] (by simp) hnd
  simpa using this

theorem lookup_insertA (m : List (String × String)) (k v key : String) :
    (insertA m k v).lookup key = if key = k then some v else m.lookup key := by
  induction m with
  | nil =>
    by_cases h : key = k
    · subst h; simp [insertA, List.lookup]
    · have hb : (key == k) = false := beq_eq_false_iff_ne.mpr h
      simp [insertA, List.lookup, hb, h]
  | cons a t ih =>
    rcases a with ⟨a1, b1⟩
    by_cases hak : a1 = k
    · subst hak
      simp only [insertA, if_pos rfl]
      by_cases h : key = a1
      · subst h; simp [List.lookup]
      · have hb : (key == a1) = false := beq_eq_false_iff_ne.mpr h
        simp [List.lookup, hb, h]
    · simp only [insertA, if_neg hak]
      by_cases h : key = a1
      · have hkk : ¬key = k := fun e => hak (h.symm.trans e)
        have hb : (key == a1) = true := beq_iff_eq.mpr h
        simp [List.lookup, hb, if_neg hkk]
      · have hb : (key == a1) = false := beq_eq_false_iff_ne.mpr h
        simp [List.lookup, hb, ih]

theorem lookup_foldl_insertA (ot : List (String × String)) :
    ∀ (acc : List (String × String)) (key : String), (ot.map Prod.fst).Nodup →
      (ot.foldl (fun m kv => insertA m kv.1 kv.2) acc).lookup key =
        (match ot.lookup key with
         | some v => some v
         | none => acc.lookup key) := by
  induction ot with
  | nil => intro acc key _; rfl
  | cons a t ih =>
    intro acc key hnd
    rcases a with ⟨k, v⟩
    have hnd2 : (k :: t.map Prod.fst).Nodup := by simpa using hnd
    have hparts := List.nodup_cons.mp hnd2
    rw [List.foldl_cons, ih _ key hparts.2]
    by_cases hk : key = k
    · subst hk
      have htl : t.lookup key = none := by
        apply lookup_eq_none_of_keys
        intro kv hkv he
        exact hparts.1 (he ▸ List.mem_map_of_mem Prod.fst hkv)
      rw [htl, lookup_insertA, if_pos rfl]
      simp [List.lookup]
    · have hb : (key == k) = false := beq_eq_false_iff_ne.mpr hk
      rw [lookup_insertA, if_neg hk]
      cases h : t.lookup key <;> simp [List.lookup, hb, h]

/-! ## Stage decomposition of the filter chain (the fixed order of §4.F) -/

/-- The `atempo` stage: present when `speed` is set and not `1.0`. -/
def stageAtempo (p : Params) : List String :=
  optStage p.speed fun v => if v ≠ 1 then ["atempo=" ++ fmtFixed 3 v] else []

/-- The `areverse` stage. -/
def stageAreverse (p : Params) : List String :=
  if p.reverse = some true then ["areverse"] else []

/-- The `volume` stage: present when `volume` is set and not `1.0`. -/
def stageVolume (p : Params) : List String :=
  optStage p.volume fun v => if v ≠ 1 then ["volume=" ++ fmtFixed 2 v] else []

/-- The `loudnorm` stage. -/
def stageLoudnorm (p : Params) : List String :=
  if p.normalize = some true then ["loudnorm=I=" ++ fmtFixed 1 (p.normalize_level.getD (-16))]
  else []

/-- The `lowpass` stage. -/
def stageLowpass (p : Params) : List String :=
  optStage p.lowpass fun f => ["lowpass=f=" ++ fmtFixed 1 f]

/-- The `highpass` stage. -/
def stageHighpass (p : Params) : List String :=
  optStage p.highpass fun f => ["highpass=f=" ++ fmtFixed 1 f]

/-- The `bandpass` stage. -/
def stageBandpass (p : Params) : List String :=
  optStage p.bandpass fun b => ["bandpass=" ++ b]

/-- The `bass` stage. -/
def stageBass (p : Params) : List String :=
  optStage p.bass fun g => ["bass=g=" ++ fmtFixed 1 g]

/-- The `treble` stage. -/
def stageTreble (p : Params) : List String :=
  optStage p.treble fun g => ["treble=g=" ++ fmtFixed 1 g]

/-- The `aecho` stage: the effect string is emitted verbatim. -/
def stageEcho (p : Params) : List String :=
  optStage p.echo fun e => ["aecho=" ++ e]

/-- The `chorus` stage. -/
def stageChorus (p : Params) : List String :=
  optStage p.chorus fun c => ["chorus=" ++ c]

/-- The `flanger` stage. -/
def stageFlanger (p : Params) : List String :=
  optStage p.flanger fun f => ["flanger=" ++ f]

/-- The `aphaser` stage. -/
def stagePhaser (p : Params) : List String :=
  optStage p.phaser fun f => ["aphaser=" ++ f]

/-- The `tremolo` stage. -/
def stageTremolo (p : Params) : List String :=
  optStage p.tremolo fun t => ["tremolo=" ++ t]

/-- The `acompressor` stage. -/
def stageCompressor (p : Params) : List String :=
  optStage p.compressor fun c => ["acompressor=" ++ c]

/-- The `anlmdn` stage. -/
def stageNoiseReduction (p : Params) : List String :=
  optStage p.noise_reduction fun n => ["anlmdn=" ++ n]

/-- The fade-in stage. -/
def stageFadeIn (p : Params) : List String :=
  optStage p.fade_in fun f => ["afade=t=in:d=" ++ fmtFixed 3 f]

/-- The fade-out stage. -/
def stageFadeOut (p : Params) : List String :=
  optStage p.fade_out fun f => ["afade=t=out:d=" ++ fmtFixed 3 f]

/-- The cross-fade stage. -/
def stageCrossfade (p : Params) : List String :=
  optStage p.cross_fade fun f => ["acrossfade=d=" ++ fmtFixed 3 f]

/-- The trailing custom filters, in their given order. -/
def stageCustom (p : Params) : List String :=
  optStage p.custom_filters fun l => l

/-- The chunks of the chain before the `aecho` stage. -/
def echoChainPre (p : Params) : List String :=
  stageAtempo p ++ stageAreverse p ++ stageVolume p ++ stageLoudnorm p ++ stageLowpass p ++
    stageHighpass p ++ stageBandpass p ++ stageBass p ++ stageTreble p

/-- The chunks of the chain after the `aecho` stage. -/
def echoChainPost (p : Params) : List String :=
  stageChorus p ++ stageFlanger p ++ stagePhaser p ++ stageTremolo p ++ stageCompressor p ++
    stageNoiseReduction p ++ stageFadeIn p ++ stageFadeOut p ++ stageCrossfade p ++ stageCustom p

/-! ## Claim C10: the two filter-assembly implementations -/

/-- C10 (corrected, counterexample): the claim as stated — the processor
string split on `,` equals the params-side list — fails when a filter
element itself contains a comma: one custom filter `volume=0.5,areverse`
joins to a string that splits into two elements. -/
theorem c10_split_counterexample :
    (ffmpeg_collect_filters { key := "k", custom_filters := some ["volume=0.5,areverse"] }).map
        (fun s => splitStr ',' s) = some ["volume=0.5", "areverse"] ∧
      Params.collect_filters { key := "k", custom_filters := some ["volume=0.5,areverse"] } =
        ["volume=0.5,areverse"] ∧
      (["volume=0.5", "areverse"] : List String) ≠ ["volume=0.5,areverse"] := by
  refine ⟨rfl, rfl, ?_⟩
  decide

/-- C10 (amended): the two implementations agree as joined strings — the
processor result is exactly the params-side list joined with `,`, and it is
`None` exactly when that list is empty. -/
theorem c10_agree (p : Params) :
    ffmpeg_collect_filters p =
      (if (Params.collect_filters p).isEmpty then none
       else some (String.intercalate "," (Params.collect_filters p))) ∧
      (ffmpeg_collect_filters p = none ↔ Params.collect_filters p = []) := by
  have h : ffmpeg_collect_filters p =
      (if (Params.collect_filters p).isEmpty then none
       else some (String.intercalate "," (Params.collect_filters p))) := rfl
  refine ⟨h, ?_⟩
  rw [h]
  by_cases he : (Params.collect_filters p).isEmpty
  · simp [he, List.isEmpty_iff.mp he]
  · simp only [if_neg he]
    constructor
    · intro hc
      exact absurd hc (by simp)
    · intro hc
      exact absurd (List.isEmpty_iff.mpr hc) he

/-! ## Claim C5: speed handling -/

/-- C5 (corrected, counterexample): for `speed = 4.0` the chain holds a
single `atempo=4.000` stage with a factor outside `[0.5, 2.0]` — no
splitting into a chain of in-range stages occurs. -/
theorem c5_no_split_counterexample :
    Params.collect_filters { key := "k", speed := some 4 } = ["atempo=4.000"] ∧
      ¬1 < ((Params.collect_filters { key := "k", speed := some 4 }).filter
        (fun s => strStarts "atempo" s)).length := by
  refine ⟨rfl, ?_⟩
  decide

/-- C5 (amended): for every set `speed ≠ 1.0` — regardless of magnitude —
exactly one `atempo` stage with the raw, unclamped factor is emitted, at
the head of the chain; the rest of the chain is that of the same `Params`
with `speed` unset. -/
theorem c5_single_atempo (p : Params) (v : ℚ) (hs : p.speed = some v) (hv : v ≠ 1) :
    p.collect_filters =
      ("atempo=" ++ fmtFixed 3 v) :: Params.collect_filters { p with speed := none } := by
  simp only [Params.collect_filters, optStage, hs, if_pos hv]
  rfl

/-- Witness for `c5_single_atempo` at `speed = 4.0`. -/
theorem c5_single_atempo_witness :
    Params.collect_filters { key := "k", speed := some 4, volume := some (1/2) } =
      ("atempo=" ++ fmtFixed 3 4) ::
        Params.collect_filters { key := "k", speed := none, volume := some (1/2) } :=
  c5_single_atempo { key := "k", speed := some 4, volume := some (1/2) } 4 rfl (by norm_num)

/-! ## Claim C7: fixed stage order and identity omission -/

/-- C7 (confirmed): the assembled chain is exactly the fixed-order
concatenation atempo, areverse, volume, loudnorm, lowpass, highpass,
bandpass, bass, treble, aecho, chorus, flanger, aphaser, tremolo,
acompressor, anlmdn, afade-in, afade-out, acrossfade, then the custom
filters in their given order; and identity values (speed=1.0, volume=1.0,
reverse=false, normalize=false) contribute no stage. -/
theorem c7_filter_order (p : Params) :
    p.collect_filters =
      List.flatten [stageAtempo p, stageAreverse p, stageVolume p, stageLoudnorm p,
        stageLowpass p, stageHighpass p, stageBandpass p, stageBass p, stageTreble p,
        stageEcho p, stageChorus p, stageFlanger p, stagePhaser p, stageTremolo p,
        stageCompressor p, stageNoiseReduction p, stageFadeIn p, stageFadeOut p,
        stageCrossfade p, stageCustom p] ∧
      (p.speed = some 1 → stageAtempo p = []) ∧
      (p.volume = some 1 → stageVolume p = []) ∧
      (p.reverse = some false → stageAreverse p = []) ∧
      (p.normalize = some false → stageLoudnorm p = []) := by
  refine ⟨?_, ?_, ?_, ?_, ?_⟩
  · simp only [Params.collect_filters, optStage, stageAtempo, stageAreverse,
      stageVolume, stageLoudnorm, stageLowpass, stageHighpass, stageBandpass, stageBass,
      stageTreble, stageEcho, stageChorus, stageFlanger, stagePhaser, stageTremolo,
      stageCompressor, stageNoiseReduction, stageFadeIn, stageFadeOut, stageCrossfade,
      stageCustom, List.flatten, List.append_nil, List.append_assoc]
  · intro h; simp [stageAtempo, optStage, h]
  · intro h; simp [stageVolume, optStage, h]
  · intro h; simp [stageAreverse, h]
  · intro h; simp [stageLoudnorm, h]

/-- The concrete parameter record used by the C7 witness: all four
identity-valued fields set, plus one real filter. -/
def c7wParams : Params :=
  { key := "k", speed := some 1, volume := some 1, reverse := some false,
    normalize := some false, lowpass := some 1000 }

/-- Witness for `c7_filter_order`, discharging each identity-omission
implication at `c7wParams`. -/
theorem c7_filter_order_witness :
    Params.collect_filters c7wParams =
      List.flatten [stageAtempo c7wParams, stageAreverse c7wParams, stageVolume c7wParams,
        stageLoudnorm c7wParams, stageLowpass c7wParams, stageHighpass c7wParams,
        stageBandpass c7wParams, stageBass c7wParams, stageTreble c7wParams,
        stageEcho c7wParams, stageChorus c7wParams, stageFlanger c7wParams,
        stagePhaser c7wParams, stageTremolo c7wParams, stageCompressor c7wParams,
        stageNoiseReduction c7wParams, stageFadeIn c7wParams, stageFadeOut c7wParams,
        stageCrossfade c7wParams, stageCustom c7wParams] ∧
      stageAtempo c7wParams = [] ∧ stageVolume c7wParams = [] ∧
      stageAreverse c7wParams = [] ∧ stageLoudnorm c7wParams = [] :=
  ⟨(c7_filter_order c7wParams).1, (c7_filter_order c7wParams).2.1 rfl,
    (c7_filter_order c7wParams).2.2.1 rfl, (c7_filter_order c7wParams).2.2.2.1 rfl,
    (c7_filter_order c7wParams).2.2.2.2 rfl⟩

/-! ## Claim C1: effect presets are not expanded by the engine -/

/-- C1 (corrected, counterexample): in the streaming engine the preset name
`light` and its canonical tuple yield different assembled filter chains —
`collect_filters` emits the `echo` string verbatim. -/
theorem c1_preset_counterexample :
    Params.collect_filters { key := "k", echo := some "light" } = ["aecho=light"] ∧
      Params.collect_filters { key := "k", echo := some "0.6:0.3:1000:0.3" } =
        ["aecho=0.6:0.3:1000:0.3"] ∧
      Params.collect_filters { key := "k", echo := some "light" } ≠
        Params.collect_filters { key := "k", echo := some "0.6:0.3:1000:0.3" } := by
  refine ⟨rfl, rfl, ?_⟩
  decide

/-- C1 (amended): the engine passes effect strings through verbatim, both
at ingest (`from_path` stores the raw value) and at filter assembly
(`aecho=<value>`); the preset-to-tuple mapping lives only in the gateway
service, whose `apply_effect_presets` rewrites preset names to canonical
tuples before the engine URL is built. -/
theorem c1_no_engine_expansion :
    (∀ (p : Params) (sv : String), p.echo = some sv →
      p.collect_filters = echoChainPre p ++ ("aecho=" ++ sv) :: echoChainPost p) ∧
      (∀ (acc : Params) (v : String), applyParam acc ("echo", v) = { acc with echo := some v }) ∧
      apply_effect_presets [("echo", .jstr "light")] = [("echo", .jstr "0.6:0.3:1000:0.3")] ∧
      apply_effect_presets [("chorus", .jstr "light")] =
        [("chorus", .jstr "0.5:0.9:50:0.4:0.25:2")] ∧
      apply_effect_presets [("flanger", .jstr "heavy")] =
        [("flanger", .jstr "0.9:0.75:4:0.25:2")] := by
  refine ⟨?_, ?_, rfl, rfl, rfl⟩
  · intro p sv h
    simp only [Params.collect_filters, echoChainPre, echoChainPost, stageAtempo,
      stageAreverse, stageVolume, stageLoudnorm, stageLowpass, stageHighpass, stageBandpass,
      stageBass, stageTreble, stageChorus, stageFlanger, stagePhaser, stageTremolo,
      stageCompressor, stageNoiseReduction, stageFadeIn, stageFadeOut, stageCrossfade,
      stageCustom, h, optStage, List.append_assoc, List.singleton_append, List.cons_append,
      List.nil_append]
  · intro acc v
    rfl

/-- Witness for `c1_no_engine_expansion` at `echo = "light"`. -/
theorem c1_no_engine_expansion_witness :
    Params.collect_filters { key := "k", echo := some "light" } =
      echoChainPre { key := "k", echo := some "light" } ++
        ("aecho=" ++ "light") :: echoChainPost { key := "k", echo := some "light" } ∧
      applyParam { key := "k" } ("echo", "light") = { key := "k", echo := some "light" } :=
  ⟨c1_no_engine_expansion.1 { key := "k", echo := some "light" } "light" rfl,
    c1_no_engine_expansion.2.1 { key := "k" } "light"⟩

/-! ## Claim C2: a failed result-store put fails the request -/

/-- Concrete storage for the C2 scenario: only the source key exists. -/
def c2storage : String → Except String AudioBlob :=
  fun k => if k = "t.mp3" then .ok ⟨[1], "audio/mpeg"⟩ else .error "miss"

/-- Concrete processor for the C2 scenario. -/
def c2proc : AudioBlob → Params → Except String AudioBlob :=
  fun _ _ => .ok ⟨[9], "audio/mpeg"⟩

/-- C2 (corrected, counterexample): with a cold result cache, a working
source fetch, a successful pipeline, and a storage `put` that fails, the
handler answers 500, not 200 with the processed bytes — the `map_err` at
`routes/streamingpath.rs:76-86` is propagated with `?`. -/
theorem c2_put_failure_counterexample :
    streamingpath_handler (fun _ => "h") c2storage (fun _ _ => .error "disk full")
        (fun _ => .error "nohttp") c2proc { key := "t.mp3" } =
      .err 500 "Failed to save result audio: disk full" ∧
      ∀ ct b, streamingpath_handler (fun _ => "h") c2storage (fun _ _ => .error "disk full")
        (fun _ => .error "nohttp") c2proc { key := "t.mp3" } ≠ .ok ct b := by
  refine ⟨rfl, ?_⟩
  intro ct b h
  rw [show streamingpath_handler (fun _ => "h") c2storage (fun _ _ => .error "disk full")
      (fun _ => .error "nohttp") c2proc { key := "t.mp3" } =
    .err 500 "Failed to save result audio: disk full" from rfl] at h
  cases h

/-- C2 (amended): after a cache miss, a successful fetch and a successful
pipeline run, the handler returns 500 when the result `put` fails, and 200
with the processed bytes only when the `put` succeeds. -/
theorem c2_put_failure_500 (hasher : Params → String)
    (storageGet : String → Except String AudioBlob)
    (storagePut : String → AudioBlob → Except String Unit)
    (httpFetch : String → Except String AudioBlob)
    (process : AudioBlob → Params → Except String AudioBlob)
    (p : Params) (blob processed : AudioBlob) (ge : String)
    (h1 : storageGet (hasher p) = .error ge)
    (h2 : strStarts "https://" p.key = false)
    (h3 : strStarts "http://" p.key = false)
    (h4 : storageGet p.key = .ok blob)
    (h5 : process blob p = .ok processed) :
    (∀ pe, storagePut (hasher p) processed = .error pe →
      streamingpath_handler hasher storageGet storagePut httpFetch process p =
        .err 500 ("Failed to save result audio: " ++ pe)) ∧
      (storagePut (hasher p) processed = .ok () →
        streamingpath_handler hasher storageGet storagePut httpFetch process p =
          .ok processed.mime processed.bytes) := by
  constructor
  · intro pe hput
    simp [streamingpath_handler, h1, h2, h3, h4, h5, hput]
  · intro hput
    simp [streamingpath_handler, h1, h2, h3, h4, h5, hput]

/-- Witness for `c2_put_failure_500` on the concrete C2 scenario. -/
theorem c2_put_failure_500_witness :
    streamingpath_handler (fun _ => "h") c2storage (fun _ _ => .error "disk full")
        (fun _ => .error "nohttp") c2proc { key := "t.mp3" } =
      .err 500 ("Failed to save result audio: " ++ "disk full") :=
  (c2_put_failure_500 (fun _ => "h") c2storage (fun _ _ => .error "disk full")
    (fun _ => .error "nohttp") c2proc { key := "t.mp3" } ⟨[1], "audio/mpeg"⟩
    ⟨[9], "audio/mpeg"⟩ "miss" rfl rfl rfl rfl rfl).1 "disk full" rfl

/-! ## Claim C4: no range validation at parse time -/

/-- C4 (corrected, counterexample): `channels=99` (outside `{1..8}`) and
`speed=-3` (not `> 0`) are accepted verbatim by `from_path` — no
`BadRequest` is produced for range violations. -/
theorem c4_no_validation_counterexample :
    from_path (fun _ => none) "t.mp3" [("channels", "99")] =
      .ok { key := "t.mp3", channels := some 99 } ∧
      from_path (fun _ => none) "t.mp3" [("speed", "-3")] =
        .ok { key := "t.mp3", speed := some (-3) } :=
  ⟨rfl, rfl⟩

/-- C4 (amended): `from_path` performs no numeric range validation: absent
an `encoded` blob it always succeeds, and parseable out-of-range values
(`channels=99`, `sample_rate=500000`) are stored as-is.  The only
parse-time failure is an invalid `encoded` blob. -/
theorem c4_parse_always_ok :
    (∀ (decode : String → Option Params) (path : String) (q : List (String × String)),
      q.lookup "encoded" = none → ∃ p, from_path decode path q = .ok p) ∧
      from_path (fun _ => none) "t.mp3" [("channels", "99"), ("sample_rate", "500000")] =
        .ok { key := "t.mp3", sample_rate := some 500000, channels := some 99 } := by
  refine ⟨?_, rfl⟩
  intro decode path q h
  exact ⟨_, from_path_of_no_encoded decode path q h⟩

/-- Witness for `c4_parse_always_ok` on a concrete query. -/
theorem c4_parse_always_ok_witness :
    ∃ p, from_path (fun _ => none) "x/y.mp3" [("volume", "0.5")] = .ok p :=
  c4_parse_always_ok.1 (fun _ => none) "x/y.mp3" [("volume", "0.5")] rfl

/-! ## Claim C9: unrecognized values default rather than fail -/

/-- C9 (confirmed): with no `encoded` blob, parsing always succeeds; an
unrecognized `format` value falls back to `Some(Mp3)` (the `unwrap_or` at
`params.rs:257`), and an unparseable numeric value (here `speed`) leaves
the field unset (`parse().ok()`). -/
theorem c9_unrecognized_defaults :
    ∀ (decode : String → Option Params) (path : String) (q : List (String × String)),
      q.lookup "encoded" = none →
      (∃ p, from_path decode path q = .ok p) ∧
      (∀ v p, lastLookup "format" q = some v → parseAudioFormat v = none →
        from_path decode path q = .ok p → p.format = some .mp3) ∧
      (∀ v p, lastLookup "speed" q = some v → parseF64 v = none →
        from_path decode path q = .ok p → p.speed = none) := by
  intro decode path q he
  have hok := from_path_of_no_encoded decode path q he
  refine ⟨⟨_, hok⟩, ?_, ?_⟩
  · intro v p hl hpv hfp
    rw [hok] at hfp
    cases hfp
    have hexp : (buildExplicit (lastSegment path) q).format =
        (match lastLookup "format" q with
         | some w => some ((parseAudioFormat w).getD .mp3)
         | none => ({ key := lastSegment path } : Params).format) := by
      rw [buildExplicit]
      exact foldl_applyParam_track Params.format "format"
        (fun w => some ((parseAudioFormat w).getD .mp3)) applyParam_format q _
    simp only [hl, hpv, Option.getD_none] at hexp
    show (if (buildExplicit (lastSegment path) q).format.isSome
      then (buildExplicit (lastSegment path) q).format else none) = some .mp3
    rw [hexp]
    rfl
  · intro v p hl hpv hfp
    rw [hok] at hfp
    cases hfp
    have hexp : (buildExplicit (lastSegment path) q).speed =
        (match lastLookup "speed" q with
         | some w => parseF64 w
         | none => ({ key := lastSegment path } : Params).speed) := by
      rw [buildExplicit]
      exact foldl_applyParam_track Params.speed "speed" parseF64 applyParam_speed q _
    simp only [hl, hpv] at hexp
    show (if (buildExplicit (lastSegment path) q).speed.isSome
      then (buildExplicit (lastSegment path) q).speed else none) = none
    rw [hexp]
    rfl

/-- The parsed record of the C9 witness query. -/
def c9wP : Params := { key := "t.mp3", format := some .mp3 }

/-- Witness for `c9_unrecognized_defaults` on
`format=xyz&speed=abc`: format falls back to mp3, speed stays unset. -/
theorem c9_unrecognized_defaults_witness :
    c9wP.format = some .mp3 ∧ c9wP.speed = none :=
  ⟨(c9_unrecognized_defaults (fun _ => none) "t.mp3" [("format", "xyz"), ("speed", "abc")]
      rfl).2.1 "xyz" c9wP rfl rfl rfl,
    (c9_unrecognized_defaults (fun _ => none) "t.mp3" [("format", "xyz"), ("speed", "abc")]
      rfl).2.2 "abc" c9wP rfl rfl rfl⟩

/-! ## Claim C6: merge precedence -/

/-- C6 (confirmed): `merge_with` takes every field set in the overlay `o`;
unset overlay fields keep the base `b`; `tags` merge key-wise with `o`
winning; sequence fields replace wholesale; and the key of any parsed
result comes from the path segment, never from the encoded blob. -/
theorem c6_merge_precedence :
    ∀ b o : Params,
      ((o.format.isSome → (b.merge_with o).format = o.format) ∧
        (o.format = none → (b.merge_with o).format = b.format)) ∧
      ((o.codec.isSome → (b.merge_with o).codec = o.codec) ∧
        (o.codec = none → (b.merge_with o).codec = b.codec)) ∧
      ((o.sample_rate.isSome → (b.merge_with o).sample_rate = o.sample_rate) ∧
        (o.sample_rate = none → (b.merge_with o).sample_rate = b.sample_rate)) ∧
      ((o.channels.isSome → (b.merge_with o).channels = o.channels) ∧
        (o.channels = none → (b.merge_with o).channels = b.channels)) ∧
      ((o.bit_rate.isSome → (b.merge_with o).bit_rate = o.bit_rate) ∧
        (o.bit_rate = none → (b.merge_with o).bit_rate = b.bit_rate)) ∧
      ((o.bit_depth.isSome → (b.merge_with o).bit_depth = o.bit_depth) ∧
        (o.bit_depth = none → (b.merge_with o).bit_depth = b.bit_depth)) ∧
      ((o.quality.isSome → (b.merge_with o).quality = o.quality) ∧
        (o.quality = none → (b.merge_with o).quality = b.quality)) ∧
      ((o.compression_level.isSome → (b.merge_with o).compression_level = o.compression_level) ∧
        (o.compression_level = none → (b.merge_with o).compression_level = b.compression_level)) ∧
      ((o.start_time.isSome → (b.merge_with o).start_time = o.start_time) ∧
        (o.start_time = none → (b.merge_with o).start_time = b.start_time)) ∧
      ((o.duration.isSome → (b.merge_with o).duration = o.duration) ∧
        (o.duration = none → (b.merge_with o).duration = b.duration)) ∧
      ((o.speed.isSome → (b.merge_with o).speed = o.speed) ∧
        (o.speed = none → (b.merge_with o).speed = b.speed)) ∧
      ((o.reverse.isSome → (b.merge_with o).reverse = o.reverse) ∧
        (o.reverse = none → (b.merge_with o).reverse = b.reverse)) ∧
      ((o.volume.isSome → (b.merge_with o).volume = o.volume) ∧
        (o.volume = none → (b.merge_with o).volume = b.volume)) ∧
      ((o.normalize.isSome → (b.merge_with o).normalize = o.normalize) ∧
        (o.normalize = none → (b.merge_with o).normalize = b.normalize)) ∧
      ((o.normalize_level.isSome → (b.merge_with o).normalize_level = o.normalize_level) ∧
        (o.normalize_level = none → (b.merge_with o).normalize_level = b.normalize_level)) ∧
      ((o.lowpass.isSome → (b.merge_with o).lowpass = o.lowpass) ∧
        (o.lowpass = none → (b.merge_with o).lowpass = b.lowpass)) ∧
      ((o.highpass.isSome → (b.merge_with o).highpass = o.highpass) ∧
        (o.highpass = none → (b.merge_with o).highpass = b.highpass)) ∧
      ((o.bandpass.isSome → (b.merge_with o).bandpass = o.bandpass) ∧
        (o.bandpass = none → (b.merge_with o).bandpass = b.bandpass)) ∧
      ((o.bass.isSome → (b.merge_with o).bass = o.bass) ∧
        (o.bass = none → (b.merge_with o).bass = b.bass)) ∧
      ((o.treble.isSome → (b.merge_with o).treble = o.treble) ∧
        (o.treble = none → (b.merge_with o).treble = b.treble)) ∧
      ((o.echo.isSome → (b.merge_with o).echo = o.echo) ∧
        (o.echo = none → (b.merge_with o).echo = b.echo)) ∧
      ((o.chorus.isSome → (b.merge_with o).chorus = o.chorus) ∧
        (o.chorus = none → (b.merge_with o).chorus = b.chorus)) ∧
      ((o.flanger.isSome → (b.merge_with o).flanger = o.flanger) ∧
        (o.flanger = none → (b.merge_with o).flanger = b.flanger)) ∧
      ((o.phaser.isSome → (b.merge_with o).phaser = o.phaser) ∧
        (o.phaser = none → (b.merge_with o).phaser = b.phaser)) ∧
      ((o.tremolo.isSome → (b.merge_with o).tremolo = o.tremolo) ∧
        (o.tremolo = none → (b.merge_with o).tremolo = b.tremolo)) ∧
      ((o.compressor.isSome → (b.merge_with o).compressor = o.compressor) ∧
        (o.compressor = none → (b.merge_with o).compressor = b.compressor)) ∧
      ((o.noise_reduction.isSome → (b.merge_with o).noise_reduction = o.noise_reduction) ∧
        (o.noise_reduction = none → (b.merge_with o).noise_reduction = b.noise_reduction)) ∧
      ((o.fade_in.isSome → (b.merge_with o).fade_in = o.fade_in) ∧
        (o.fade_in = none → (b.merge_with o).fade_in = b.fade_in)) ∧
      ((o.fade_out.isSome → (b.merge_with o).fade_out = o.fade_out) ∧
        (o.fade_out = none → (b.merge_with o).fade_out = b.fade_out)) ∧
      ((o.cross_fade.isSome → (b.merge_with o).cross_fade = o.cross_fade) ∧
        (o.cross_fade = none → (b.merge_with o).cross_fade = b.cross_fade)) ∧
      ((o.custom_filters.isSome → (b.merge_with o).custom_filters = o.custom_filters) ∧
        (o.custom_filters = none → (b.merge_with o).custom_filters = b.custom_filters)) ∧
      ((o.custom_options.isSome → (b.merge_with o).custom_options = o.custom_options) ∧
        (o.custom_options = none → (b.merge_with o).custom_options = b.custom_options)) ∧
      (∀ l, o.tags = some l → (l.map Prod.fst).Nodup →
        ∀ key, ((b.merge_with o).tags.getD []).lookup key =
          (match l.lookup key with
           | some v => some v
           | none => (b.tags.getD []).lookup key)) ∧
      (o.tags = none → (b.merge_with o).tags = b.tags) ∧
      (∀ (decode : String → Option Params) (path : String)
        (query : List (String × String)) (r : Params),
        from_path decode path query = .ok r → r.key = lastSegment path) := by
  intro b o
  refine ⟨⟨fun h => by
        rw [show (Params.merge_with b o).format = (if (o.format).isSome then o.format else b.format) from rfl,
          if_pos h],
      fun h => by
        rw [show (Params.merge_with b o).format = (if (o.format).isSome then o.format else b.format) from rfl, h]
        rfl⟩,
    ⟨fun h => by
        rw [show (Params.merge_with b o).codec = (if (o.codec).isSome then o.codec else b.codec) from rfl,
          if_pos h],
      fun h => by
        rw [show (Params.merge_with b o).codec = (if (o.codec).isSome then o.codec else b.codec) from rfl, h]
        rfl⟩,
    ⟨fun h => by
        rw [show (Params.merge_with b o).sample_rate = (if (o.sample_rate).isSome then o.sample_rate else b.sample_rate) from rfl,
          if_pos h],
      fun h => by
        rw [show (Params.merge_with b o).sample_rate = (if (o.sample_rate).isSome then o.sample_rate else b.sample_rate) from rfl, h]
        rfl⟩,
    ⟨fun h => by
        rw [show (Params.merge_with b o).channels = (if (o.channels).isSome then o.channels else b.channels) from rfl,
          if_pos h],
      fun h => by
        rw [show (Params.merge_with b o).channels = (if (o.channels).isSome then o.channels else b.channels) from rfl, h]
        rfl⟩,
    ⟨fun h => by
        rw [show (Params.merge_with b o).bit_rate = (if (o.bit_rate).isSome then o.bit_rate else b.bit_rate) from rfl,
          if_pos h],
      fun h => by
        rw [show (Params.merge_with b o).bit_rate = (if (o.bit_rate).isSome then o.bit_rate else b.bit_rate) from rfl, h]
        rfl⟩,
    ⟨fun h => by
        rw [show (Params.merge_with b o).bit_depth = (if (o.bit_depth).isSome then o.bit_depth else b.bit_depth) from rfl,
          if_pos h],
      fun h => by
        rw [show (Params.merge_with b o).bit_depth = (if (o.bit_depth).isSome then o.bit_depth else b.bit_depth) from rfl, h]
        rfl⟩,
    ⟨fun h => by
        rw [show (Params.merge_with b o).quality = (if (o.quality).isSome then o.quality else b.quality) from rfl,
          if_pos h],
      fun h => by
        rw [show (Params.merge_with b o).quality = (if (o.quality).isSome then o.quality else b.quality) from rfl, h]
        rfl⟩,
    ⟨fun h => by
        rw [show (Params.merge_with b o).compression_level = (if (o.compression_level).isSome then o.compression_level else b.compression_level) from rfl,
          if_pos h],
      fun h => by
        rw [show (Params.merge_with b o).compression_level = (if (o.compression_level).isSome then o.compression_level else b.compression_level) from rfl, h]
        rfl⟩,
    ⟨fun h => by
        rw [show (Params.merge_with b o).start_time = (if (o.start_time).isSome then o.start_time else b.start_time) from rfl,
          if_pos h],
      fun h => by
        rw [show (Params.merge_with b o).start_time = (if (o.start_time).isSome then o.start_time else b.start_time) from rfl, h]
        rfl⟩,
    ⟨fun h => by
        rw [show (Params.merge_with b o).duration = (if (o.duration).isSome then o.duration else b.duration) from rfl,
          if_pos h],
      fun h => by
        rw [show (Params.merge_with b o).duration = (if (o.duration).isSome then o.duration else b.duration) from rfl, h]
        rfl⟩,
    ⟨fun h => by
        rw [show (Params.merge_with b o).speed = (if (o.speed).isSome then o.speed else b.speed) from rfl,
          if_pos h],
      fun h => by
        rw [show (Params.merge_with b o).speed = (if (o.speed).isSome then o.speed else b.speed) from rfl, h]
        rfl⟩,
    ⟨fun h => by
        rw [show (Params.merge_with b o).reverse = (if (o.reverse).isSome then o.reverse else b.reverse) from rfl,
          if_pos h],
      fun h => by
        rw [show (Params.merge_with b o).reverse = (if (o.reverse).isSome then o.reverse else b.reverse) from rfl, h]
        rfl⟩,
    ⟨fun h => by
        rw [show (Params.merge_with b o).volume = (if (o.volume).isSome then o.volume else b.volume) from rfl,
          if_pos h],
      fun h => by
        rw [show (Params.merge_with b o).volume = (if (o.volume).isSome then o.volume else b.volume) from rfl, h]
        rfl⟩,
    ⟨fun h => by
        rw [show (Params.merge_with b o).normalize = (if (o.normalize).isSome then o.normalize else b.normalize) from rfl,
          if_pos h],
      fun h => by
        rw [show (Params.merge_with b o).normalize = (if (o.normalize).isSome then o.normalize else b.normalize) from rfl, h]
        rfl⟩,
    ⟨fun h => by
        rw [show (Params.merge_with b o).normalize_level = (if (o.normalize_level).isSome then o.normalize_level else b.normalize_level) from rfl,
          if_pos h],
      fun h => by
        rw [show (Params.merge_with b o).normalize_level = (if (o.normalize_level).isSome then o.normalize_level else b.normalize_level) from rfl, h]
        rfl⟩,
    ⟨fun h => by
        rw [show (Params.merge_with b o).lowpass = (if (o.lowpass).isSome then o.lowpass else b.lowpass) from rfl,
          if_pos h],
      fun h => by
        rw [show (Params.merge_with b o).lowpass = (if (o.lowpass).isSome then o.lowpass else b.lowpass) from rfl, h]
        rfl⟩,
    ⟨fun h => by
        rw [show (Params.merge_with b o).highpass = (if (o.highpass).isSome then o.highpass else b.highpass) from rfl,
          if_pos h],
      fun h => by
        rw [show (Params.merge_with b o).highpass = (if (o.highpass).isSome then o.highpass else b.highpass) from rfl, h]
        rfl⟩,
    ⟨fun h => by
        rw [show (Params.merge_with b o).bandpass = (if (o.bandpass).isSome then o.bandpass else b.bandpass) from rfl,
          if_pos h],
      fun h => by
        rw [show (Params.merge_with b o).bandpass = (if (o.bandpass).isSome then o.bandpass else b.bandpass) from rfl, h]
        rfl⟩,
    ⟨fun h => by
        rw [show (Params.merge_with b o).bass = (if (o.bass).isSome then o.bass else b.bass) from rfl,
          if_pos h],
      fun h => by
        rw [show (Params.merge_with b o).bass = (if (o.bass).isSome then o.bass else b.bass) from rfl, h]
        rfl⟩,
    ⟨fun h => by
        rw [show (Params.merge_with b o).treble = (if (o.treble).isSome then o.treble else b.treble) from rfl,
          if_pos h],
      fun h => by
        rw [show (Params.merge_with b o).treble = (if (o.treble).isSome then o.treble else b.treble) from rfl, h]
        rfl⟩,
    ⟨fun h => by
        rw [show (Params.merge_with b o).echo = (if (o.echo).isSome then o.echo else b.echo) from rfl,
          if_pos h],
      fun h => by
        rw [show (Params.merge_with b o).echo = (if (o.echo).isSome then o.echo else b.echo) from rfl, h]
        rfl⟩,
    ⟨fun h => by
        rw [show (Params.merge_with b o).chorus = (if (o.chorus).isSome then o.chorus else b.chorus) from rfl,
          if_pos h],
      fun h => by
        rw [show (Params.merge_with b o).chorus = (if (o.chorus).isSome then o.chorus else b.chorus) from rfl, h]
        rfl⟩,
    ⟨fun h => by
        rw [show (Params.merge_with b o).flanger = (if (o.flanger).isSome then o.flanger else b.flanger) from rfl,
          if_pos h],
      fun h => by
        rw [show (Params.merge_with b o).flanger = (if (o.flanger).isSome then o.flanger else b.flanger) from rfl, h]
        rfl⟩,
    ⟨fun h => by
        rw [show (Params.merge_with b o).phaser = (if (o.phaser).isSome then o.phaser else b.phaser) from rfl,
          if_pos h],
      fun h => by
        rw [show (Params.merge_with b o).phaser = (if (o.phaser).isSome then o.phaser else b.phaser) from rfl, h]
        rfl⟩,
    ⟨fun h => by
        rw [show (Params.merge_with b o).tremolo = (if (o.tremolo).isSome then o.tremolo else b.tremolo) from rfl,
          if_pos h],
      fun h => by
        rw [show (Params.merge_with b o).tremolo = (if (o.tremolo).isSome then o.tremolo else b.tremolo) from rfl, h]
        rfl⟩,
    ⟨fun h => by
        rw [show (Params.merge_with b o).compressor = (if (o.compressor).isSome then o.compressor else b.compressor) from rfl,
          if_pos h],
      fun h => by
        rw [show (Params.merge_with b o).compressor = (if (o.compressor).isSome then o.compressor else b.compressor) from rfl, h]
        rfl⟩,
    ⟨fun h => by
        rw [show (Params.merge_with b o).noise_reduction = (if (o.noise_reduction).isSome then o.noise_reduction else b.noise_reduction) from rfl,
          if_pos h],
      fun h => by
        rw [show (Params.merge_with b o).noise_reduction = (if (o.noise_reduction).isSome then o.noise_reduction else b.noise_reduction) from rfl, h]
        rfl⟩,
    ⟨fun h => by
        rw [show (Params.merge_with b o).fade_in = (if (o.fade_in).isSome then o.fade_in else b.fade_in) from rfl,
          if_pos h],
      fun h => by
        rw [show (Params.merge_with b o).fade_in = (if (o.fade_in).isSome then o.fade_in else b.fade_in) from rfl, h]
        rfl⟩,
    ⟨fun h => by
        rw [show (Params.merge_with b o).fade_out = (if (o.fade_out).isSome then o.fade_out else b.fade_out) from rfl,
          if_pos h],
      fun h => by
        rw [show (Params.merge_with b o).fade_out = (if (o.fade_out).isSome then o.fade_out else b.fade_out) from rfl, h]
        rfl⟩,
    ⟨fun h => by
        rw [show (Params.merge_with b o).cross_fade = (if (o.cross_fade).isSome then o.cross_fade else b.cross_fade) from rfl,
          if_pos h],
      fun h => by
        rw [show (Params.merge_with b o).cross_fade = (if (o.cross_fade).isSome then o.cross_fade else b.cross_fade) from rfl, h]
        rfl⟩,
    ⟨fun h => by
        rw [show (Params.merge_with b o).custom_filters = (if (o.custom_filters).isSome then o.custom_filters else b.custom_filters) from rfl,
          if_pos h],
      fun h => by
        rw [show (Params.merge_with b o).custom_filters = (if (o.custom_filters).isSome then o.custom_filters else b.custom_filters) from rfl, h]
        rfl⟩,
    ⟨fun h => by
        rw [show (Params.merge_with b o).custom_options = (if (o.custom_options).isSome then o.custom_options else b.custom_options) from rfl,
          if_pos h],
      fun h => by
        rw [show (Params.merge_with b o).custom_options = (if (o.custom_options).isSome then o.custom_options else b.custom_options) from rfl, h]
        rfl⟩, ?_, ?_, ?_⟩
  · intro l hl hnd key
    rw [show (Params.merge_with b o).tags =
        (match o.tags with
         | some ot => some (ot.foldl (fun acc kv => insertA acc kv.1 kv.2) (b.tags.getD []))
         | none => b.tags) from rfl, hl]
    rw [Option.getD_some]
    exact lookup_foldl_insertA l (b.tags.getD []) key hnd
  · intro hl
    rw [show (Params.merge_with b o).tags =
        (match o.tags with
         | some ot => some (ot.foldl (fun acc kv => insertA acc kv.1 kv.2) (b.tags.getD []))
         | none => b.tags) from rfl, hl]
  · exact from_path_key

/-- Witness for `c6_merge_precedence` on concrete base and overlay. -/
theorem c6_merge_precedence_witness :
    (Params.merge_with { key := "b.mp3", volume := some (4/5), reverse := some true }
        { key := "o.mp3", volume := some (1/2),
          tags := some [("artist", "A")] }).volume = some (1/2) ∧
      (Params.merge_with { key := "b.mp3", volume := some (4/5), reverse := some true }
        { key := "o.mp3", volume := some (1/2),
          tags := some [("artist", "A")] }).reverse =
        ({ key := "b.mp3", volume := some (4/5), reverse := some true } : Params).reverse ∧
      ((Params.merge_with { key := "b.mp3", volume := some (4/5), reverse := some true }
        { key := "o.mp3", volume := some (1/2),
          tags := some [("artist", "A")] }).tags.getD []).lookup "artist" = some "A" := by
  have h := c6_merge_precedence
    { key := "b.mp3", volume := some (4/5), reverse := some true }
    { key := "o.mp3", volume := some (1/2), tags := some [("artist", "A")] }
  refine ⟨(h.2.2.2.2.2.2.2.2.2.2.2.2.1).1 rfl, ?_, ?_⟩
  · exact (h.2.2.2.2.2.2.2.2.2.2.2.1).2 rfl
  · have h2 := (h.2.2.2.2.2.2.2.2.2.2.2.2.2.2.2.2.2.2.2.2.2.2.2.2.2.2.2.2.2.2.2.2.1) [("artist", "A")] rfl (by decide) "artist"
    rw [h2]
    rfl

/-! ## Claim C8: the key is the last path segment -/

theorem lastSegment_of_no_slash (s : String) (h : ∀ c ∈ s.data, c ≠ '/') :
    lastSegment s = s := by
  rw [lastSegment, splitCharList_single '/' s.data h]
  rfl

theorem from_str_eq (decode : String → Option Params) (s : String) :
    from_str decode s =
      (if (splitStr '?' s).length ≤ 1 then
        from_path decode
          (lastSegment ⟨((splitStr '?' s).headD "").data.dropWhile (fun c => c = '/')⟩) []
      else
        from_path decode
          (lastSegment ⟨((splitStr '?' s).headD "").data.dropWhile (fun c => c = '/')⟩)
          (queryStringParse ((splitStr '?' s).getD 1 ""))) := rfl

/-- C8 (confirmed): any parsed key is exactly the final slash-separated
segment of the request path (for `from_path` directly and for `from_str`
after splitting off the query and stripping leading slashes), and a parsed
key never contains `/`. -/
theorem c8_key_last_segment :
    (∀ (decode : String → Option Params) (path : String)
      (query : List (String × String)) (r : Params),
      from_path decode path query = .ok r →
      r.key = lastSegment path ∧ ∀ c ∈ r.key.data, c ≠ '/') ∧
      (∀ (decode : String → Option Params) (s : String) (r : Params),
        from_str decode s = .ok r →
        r.key = lastSegment ⟨((splitStr '?' s).headD "").data.dropWhile (fun c => c = '/')⟩) ∧
      lastSegment "audio/music/song.wav" = "song.wav" := by
  refine ⟨?_, ?_, rfl⟩
  · intro decode path query r h
    refine ⟨from_path_key decode path query r h, fun c hc => ?_⟩
    rw [from_path_key decode path query r h] at hc
    exact lastSegment_no_slash path c hc
  · intro decode s r h
    rw [from_str_eq] at h
    have hseg : ∀ (q : List (String × String)),
        from_path decode
          (lastSegment ⟨((splitStr '?' s).headD "").data.dropWhile (fun c => c = '/')⟩) q =
          .ok r →
        r.key = lastSegment ⟨((splitStr '?' s).headD "").data.dropWhile (fun c => c = '/')⟩ := by
      intro q hq
      rw [from_path_key _ _ _ _ hq]
      exact lastSegment_of_no_slash _
        (lastSegment_no_slash ⟨((splitStr '?' s).headD "").data.dropWhile (fun c => c = '/')⟩)
    by_cases hl : (splitStr '?' s).length ≤ 1
    · rw [if_pos hl] at h
      exact hseg [] h
    · rw [if_neg hl] at h
      exact hseg _ h

/-- Witness for `c8_key_last_segment` on the path
`audio/music/song.wav`. -/
theorem c8_key_last_segment_witness :
    ({ key := "song.wav" } : Params).key = lastSegment "audio/music/song.wav" ∧
      ∀ c ∈ (({ key := "song.wav" } : Params).key).data, c ≠ '/' :=
  c8_key_last_segment.1 (fun _ => none) "audio/music/song.wav" [] { key := "song.wav" } rfl



/-! ## Query round-trip (claim C3): helper lemmas -/

theorem if_isSome {α : Type} (x : Option α) :
    (if x.isSome = true then x else none) = x := by
  cases x <;> rfl

theorem isPrefixOf_append_self (l r : List Char) : l.isPrefixOf (l ++ r) = true := by
  simp [List.isPrefixOf_iff_prefix]

theorem strStarts_tag_append (k : String) : strStarts "tag_" ("tag_" ++ k) = true := by
  show List.isPrefixOf "tag_".data ("tag_".data ++ k.data) = true
  exact isPrefixOf_append_self _ _

theorem tag_append_ne (k s : String) (h : strStarts "tag_" s = false) :
    ("tag_" ++ k) ≠ s := by
  intro he
  rw [← he, strStarts_tag_append] at h
  exact absurd h (by decide)

theorem trimStartAux_stop {pat l : List Char} (h : List.isPrefixOf pat l = false) :
    ∀ fuel, trimStartAux pat fuel l = l := by
  intro fuel
  cases fuel with
  | zero => rfl
  | succ n =>
    simp only [trimStartAux]
    rw [if_neg]
    intro hc
    have h2 : List.isPrefixOf pat l = true := hc.2
    rw [h] at h2
    exact absurd h2 (by decide)

theorem trimStartAux_step (pat l : List Char) (fuel : Nat) (hne : pat ≠ [])
    (hp : List.isPrefixOf pat l = true) :
    trimStartAux pat (fuel + 1) l = trimStartAux pat fuel (l.drop pat.length) := by
  simp only [trimStartAux]
  rw [if_pos ⟨hne, hp⟩]

theorem trim_tag (tk : String) (h : strStarts "tag_" tk = false) :
    trimStartMatches "tag_" ("tag_" ++ tk) = tk := by
  have h' : List.isPrefixOf "tag_".data tk.data = false := h
  apply String.ext
  show trimStartAux "tag_".data (("tag_" ++ tk).data.length) (("tag_" ++ tk).data) = tk.data
  have hd : ("tag_" ++ tk).data = "tag_".data ++ tk.data := rfl
  rw [hd]
  have hstep : ∀ fuel, trimStartAux "tag_".data (fuel + 1) ("tag_".data ++ tk.data) =
      trimStartAux "tag_".data fuel tk.data := by
    intro fuel
    rw [trimStartAux_step _ _ _ (by decide) (isPrefixOf_append_self _ _)]
    rw [List.drop_left]
  have hfuel : ("tag_".data ++ tk.data).length = (("tag_".data ++ tk.data).length - 1) + 1 := by
    rw [List.length_append]
    have h4 : ("tag_".data).length = 4 := rfl
    omega
  rw [hfuel, hstep]
  exact trimStartAux_stop h' _

/-- The tag branch of the query loop (`params.rs:295-300`): a key of the
form `tag_<k>` lands in the `tags` map under the trimmed key. -/
theorem applyParam_tagkey (acc : Params) (tk v : String) :
    applyParam acc ("tag_" ++ tk, v) =
      { acc with
        tags :=
          some (insertA (acc.tags.getD []) (trimStartMatches "tag_" ("tag_" ++ tk)) v) } := by
  simp only [applyParam]
  rw [if_neg (tag_append_ne tk "encoded" (by decide))]
  rw [if_neg (tag_append_ne tk "format" (by decide))]
  rw [if_neg (tag_append_ne tk "codec" (by decide))]
  rw [if_neg (tag_append_ne tk "sample_rate" (by decide))]
  rw [if_neg (tag_append_ne tk "channels" (by decide))]
  rw [if_neg (tag_append_ne tk "bit_rate" (by decide))]
  rw [if_neg (tag_append_ne tk "bit_depth" (by decide))]
  rw [if_neg (tag_append_ne tk "quality" (by decide))]
  rw [if_neg (tag_append_ne tk "compression_level" (by decide))]
  rw [if_neg (tag_append_ne tk "start_time" (by decide))]
  rw [if_neg (tag_append_ne tk "duration" (by decide))]
  rw [if_neg (tag_append_ne tk "speed" (by decide))]
  rw [if_neg (tag_append_ne tk "reverse" (by decide))]
  rw [if_neg (tag_append_ne tk "volume" (by decide))]
  rw [if_neg (tag_append_ne tk "normalize" (by decide))]
  rw [if_neg (tag_append_ne tk "normalize_level" (by decide))]
  rw [if_neg (tag_append_ne tk "lowpass" (by decide))]
  rw [if_neg (tag_append_ne tk "highpass" (by decide))]
  rw [if_neg (tag_append_ne tk "bandpass" (by decide))]
  rw [if_neg (tag_append_ne tk "bass" (by decide))]
  rw [if_neg (tag_append_ne tk "treble" (by decide))]
  rw [if_neg (tag_append_ne tk "echo" (by decide))]
  rw [if_neg (tag_append_ne tk "chorus" (by decide))]
  rw [if_neg (tag_append_ne tk "flanger" (by decide))]
  rw [if_neg (tag_append_ne tk "phaser" (by decide))]
  rw [if_neg (tag_append_ne tk "tremolo" (by decide))]
  rw [if_neg (tag_append_ne tk "compressor" (by decide))]
  rw [if_neg (tag_append_ne tk "noise_reduction" (by decide))]
  rw [if_neg (tag_append_ne tk "fade_in" (by decide))]
  rw [if_neg (tag_append_ne tk "fade_out" (by decide))]
  rw [if_neg (tag_append_ne tk "cross_fade" (by decide))]
  rw [if_pos (strStarts_tag_append tk)]

theorem parseAudioFormat_toStr (f : AudioFormat) : parseAudioFormat f.toStr = some f := by
  cases f <;> rfl

theorem flattenQuery_append (a b : List (String × List String)) :
    flattenQuery (a ++ b) = flattenQuery a ++ flattenQuery b := by
  simp [flattenQuery]

theorem flattenQuery_cons_single (a b : String) (rest : List (String × List String)) :
    flattenQuery ((a, [b]) :: rest) = (a, b) :: flattenQuery rest := rfl

theorem mem_flatten_qEntry {α : Type} {k : String} {o : Option α} {f : α → List String}
    {kv : String × String} (h : kv ∈ flattenQuery (qEntry k o f)) : kv.1 = k := by
  cases o with
  | none => simp [qEntry, flattenQuery] at h
  | some v =>
    simp only [qEntry, flattenQuery, List.flatMap_cons, List.flatMap_nil,
      List.append_nil, List.mem_map] at h
    rcases h with ⟨x, _, hx⟩
    rw [← hx]

theorem lookup_flatten_append_none {key : String} {a b : List (String × List String)}
    (ha : (flattenQuery a).lookup key = none) (hb : (flattenQuery b).lookup key = none) :
    (flattenQuery (a ++ b)).lookup key = none := by
  rw [flattenQuery_append, lookup_append, ha, hb]

theorem lookup_flatten_qEntry_ne {α : Type} (key k : String) (o : Option α)
    (f : α → List String) (hne : k ≠ key) :
    (flattenQuery (qEntry k o f)).lookup key = none := by
  apply lookup_eq_none_of_keys
  intro kv hkv
  rw [mem_flatten_qEntry hkv]
  exact hne

theorem lookup_flatten_tagchunk (ts : List (String × String)) (key : String)
    (hkey : strStarts "tag_" key = false) :
    (flattenQuery (ts.map fun kv => ("tag_" ++ kv.1, [kv.2]))).lookup key = none := by
  apply lookup_eq_none_of_keys
  intro kv hkv
  simp only [flattenQuery, List.mem_flatMap, List.mem_map] at hkv
  rcases hkv with ⟨a, ⟨b, hb, hba⟩, x, hx, hxa⟩
  rw [← hxa, ← hba]
  exact tag_append_ne b.1 key hkey

/-- Every pair of a rendered `qEntry` chunk carries that chunk's key. -/
theorem mem_qEntry_fst {α : Type} {k : String} {o : Option α} {f : α → List String}
    {kv : String × List String} (h : kv ∈ qEntry k o f) : kv.1 = k := by
  cases o with
  | none => simp [qEntry] at h
  | some v =>
    simp only [qEntry, List.mem_singleton] at h
    rw [h]

theorem lookup_flatten_of_keys (l : List (String × List String)) (key : String)
    (h : ∀ kv ∈ l, kv.1 ≠ key) : (flattenQuery l).lookup key = none := by
  apply lookup_eq_none_of_keys
  intro kv hkv
  simp only [flattenQuery, List.mem_flatMap, List.mem_map] at hkv
  rcases hkv with ⟨a, ha, x, hx, hxa⟩
  rw [← hxa]
  exact h a ha

/-- No key rendered by `to_query` is the reserved `encoded` key. -/
theorem to_query_no_encoded (p : Params) :
    (flattenQuery (Params.to_query p)).lookup "encoded" = none := by
  apply lookup_flatten_of_keys
  intro kv hkv
  simp only [Params.to_query, List.mem_append] at hkv
  rcases hkv with (((((((((((((((((((((((((((((((h|h)|h)|h)|h)|h)|h)|h)|h)|h)|h)|h)|h)|h)|h)|h)|h)|h)|h)|h)|h)|h)|h)|h)|h)|h)|h)|h)|h)|h)|h)|h)|h
  · rw [mem_qEntry_fst h]
    decide
  · rw [mem_qEntry_fst h]
    decide
  · rw [mem_qEntry_fst h]
    decide
  · rw [mem_qEntry_fst h]
    decide
  · rw [mem_qEntry_fst h]
    decide
  · rw [mem_qEntry_fst h]
    decide
  · rw [mem_qEntry_fst h]
    decide
  · rw [mem_qEntry_fst h]
    decide
  · rw [mem_qEntry_fst h]
    decide
  · rw [mem_qEntry_fst h]
    decide
  · rw [mem_qEntry_fst h]
    decide
  · rw [mem_qEntry_fst h]
    decide
  · rw [mem_qEntry_fst h]
    decide
  · rw [mem_qEntry_fst h]
    decide
  · rw [mem_qEntry_fst h]
    decide
  · rw [mem_qEntry_fst h]
    decide
  · rw [mem_qEntry_fst h]
    decide
  · rw [mem_qEntry_fst h]
    decide
  · rw [mem_qEntry_fst h]
    decide
  · rw [mem_qEntry_fst h]
    decide
  · rw [mem_qEntry_fst h]
    decide
  · rw [mem_qEntry_fst h]
    decide
  · rw [mem_qEntry_fst h]
    decide
  · rw [mem_qEntry_fst h]
    decide
  · rw [mem_qEntry_fst h]
    decide
  · rw [mem_qEntry_fst h]
    decide
  · rw [mem_qEntry_fst h]
    decide
  · rw [mem_qEntry_fst h]
    decide
  · rw [mem_qEntry_fst h]
    decide
  · rw [mem_qEntry_fst h]
    decide
  · rw [mem_qEntry_fst h]
    decide
  · rw [mem_qEntry_fst h]
    decide
  · cases hts : p.tags with
    | none => rw [hts] at h; simp at h
    | some ts =>
      rw [hts] at h
      rcases List.mem_map.mp h with ⟨b, hb, hbe⟩
      rw [← hbe]
      exact tag_append_ne b.1 "encoded" (by decide)

/-- Merging an all-default base (fresh `Params` with only the key) with an
overlay whose key is that same path key gives back the overlay. -/
theorem merge_default (o : Params) (k : String) (hk : o.key = k)
    (htags : ∀ ts, o.tags = some ts → (ts.map Prod.fst).Nodup) :
    Params.merge_with { key := k } o = o := by
  have hkey : (if o.key ≠ "" then o.key else k) = o.key := by
    by_cases h : o.key ≠ ""
    · rw [if_pos h]
    · rw [if_neg h, hk]
  have htag : (match o.tags with
      | some ot => some (ot.foldl (fun acc kv => insertA acc kv.1 kv.2) [])
      | none => (none : Option (List (String × String)))) = o.tags := by
    cases ho : o.tags with
    | none => rfl
    | some ts =>
      show some (List.foldl (fun acc kv => insertA acc kv.1 kv.2) [] ts) = some ts
      rw [insertA_fold_eq ts (htags ts ho)]
  cases o
  simp only [Params.merge_with, Params.mk.injEq]
  exact ⟨hkey, if_isSome _, if_isSome _, if_isSome _, if_isSome _, if_isSome _, if_isSome _,
    if_isSome _, if_isSome _, if_isSome _, if_isSome _, if_isSome _, if_isSome _, if_isSome _,
    if_isSome _, if_isSome _, if_isSome _, if_isSome _, if_isSome _, if_isSome _, if_isSome _,
    if_isSome _, if_isSome _, if_isSome _, if_isSome _, if_isSome _, if_isSome _, if_isSome _,
    if_isSome _, if_isSome _, if_isSome _, if_isSome _, if_isSome _, htag⟩


/-! ## Well-formedness for the round-trip, and the per-field chunks -/

/-- Check a predicate on the value of a set optional field. -/
def decOpt {α : Type} (o : Option α) (f : α → Bool) : Bool :=
  match o with
  | some v => f v
  | none => true

/-- The value fits in an `i32` (every Rust `i32` does). -/
def i32ok (n : Int) : Bool := decide (-2147483648 ≤ n) && decide (n ≤ 2147483647)

/-- Tags round-trip cleanly: some non-empty map with distinct keys, none of
which itself starts with the reserved prefix `tag_`. -/
def tagsOk (o : Option (List (String × String))) : Bool :=
  match o with
  | some ts =>
    decide (ts ≠ []) && decide ((ts.map Prod.fst).Nodup) &&
      ts.all fun kv => decide (strStarts "tag_" kv.1 = false)
  | none => true

/-- A `Params` is well formed when its numbers are genuine `f64`/`i32`
values (finite doubles have terminating decimal expansions), the sequence
fields are unset, and the tags are a clean map.  This captures exactly the
values representable by the Rust struct that survive the
`custom_filters`-dropping and `tag_`-mangling defects proved below. -/
def wellFormed (p : Params) : Bool :=
  decOpt p.sample_rate i32ok && decOpt p.channels i32ok && decOpt p.bit_rate i32ok &&
  decOpt p.bit_depth i32ok && decOpt p.compression_level i32ok &&
  decOpt p.quality isDecimal && decOpt p.start_time isDecimal &&
  decOpt p.duration isDecimal && decOpt p.speed isDecimal &&
  decOpt p.volume isDecimal && decOpt p.normalize_level isDecimal &&
  decOpt p.lowpass isDecimal && decOpt p.highpass isDecimal &&
  decOpt p.bass isDecimal && decOpt p.treble isDecimal &&
  decOpt p.fade_in isDecimal && decOpt p.fade_out isDecimal &&
  decOpt p.cross_fade isDecimal &&
  p.custom_filters.isNone && p.custom_options.isNone && tagsOk p.tags

theorem decOpt_true {α : Type} {o : Option α} {f : α → Bool} (h : decOpt o f = true) :
    ∀ v, o = some v → f v = true := by
  intro v hv
  rw [hv] at h
  exact h

theorem i32ok_le {n : Int} (h : i32ok n = true) :
    -2147483648 ≤ n ∧ n ≤ 2147483647 := by
  simp only [i32ok, Bool.and_eq_true, decide_eq_true_eq] at h
  exact h

theorem wellFormed_tags_nodup {p : Params} (h : wellFormed p = true) :
    ∀ ts, p.tags = some ts → (ts.map Prod.fst).Nodup := by
  intro ts hts
  simp only [wellFormed, Bool.and_eq_true] at h
  have h21 : tagsOk p.tags = true := h.2
  rw [hts] at h21
  simp only [tagsOk, Bool.and_eq_true, decide_eq_true_eq] at h21
  exact h21.1.2

theorem chunk_format (acc : Params) (o : Option AudioFormat) :
    List.foldl applyParam acc (flattenQuery (qEntry "format" o (fun f => [f.toStr]))) =
      { acc with format := o.or acc.format } := by
  cases o with
  | none => rfl
  | some f => cases f <;> rfl

theorem chunk_codec (acc : Params) (o : Option String) :
    List.foldl applyParam acc (flattenQuery (qEntry "codec" o (fun c => [c]))) =
      { acc with codec := o.or acc.codec } := by
  cases o with
  | none => rfl
  | some s => rfl

theorem chunk_sample_rate (acc : Params) (o : Option Int)
    (hd : ∀ v, o = some v → i32ok v = true) :
    List.foldl applyParam acc (flattenQuery (qEntry "sample_rate" o (fun n => [fmtInt n]))) =
      { acc with sample_rate := o.or acc.sample_rate } := by
  cases o with
  | none => rfl
  | some n =>
    have hb := i32ok_le (hd n rfl)
    show ({ acc with sample_rate := parseI32 (fmtInt n) } : Params) =
      { acc with sample_rate := (some n).or acc.sample_rate }
    rw [parseI32_fmtInt n hb.1 hb.2]
    rfl

theorem chunk_channels (acc : Params) (o : Option Int)
    (hd : ∀ v, o = some v → i32ok v = true) :
    List.foldl applyParam acc (flattenQuery (qEntry "channels" o (fun n => [fmtInt n]))) =
      { acc with channels := o.or acc.channels } := by
  cases o with
  | none => rfl
  | some n =>
    have hb := i32ok_le (hd n rfl)
    show ({ acc with channels := parseI32 (fmtInt n) } : Params) =
      { acc with channels := (some n).or acc.channels }
    rw [parseI32_fmtInt n hb.1 hb.2]
    rfl

theorem chunk_bit_rate (acc : Params) (o : Option Int)
    (hd : ∀ v, o = some v → i32ok v = true) :
    List.foldl applyParam acc (flattenQuery (qEntry "bit_rate" o (fun n => [fmtInt n]))) =
      { acc with bit_rate := o.or acc.bit_rate } := by
  cases o with
  | none => rfl
  | some n =>
    have hb := i32ok_le (hd n rfl)
    show ({ acc with bit_rate := parseI32 (fmtInt n) } : Params) =
      { acc with bit_rate := (some n).or acc.bit_rate }
    rw [parseI32_fmtInt n hb.1 hb.2]
    rfl

theorem chunk_bit_depth (acc : Params) (o : Option Int)
    (hd : ∀ v, o = some v → i32ok v = true) :
    List.foldl applyParam acc (flattenQuery (qEntry "bit_depth" o (fun n => [fmtInt n]))) =
      { acc with bit_depth := o.or acc.bit_depth } := by
  cases o with
  | none => rfl
  | some n =>
    have hb := i32ok_le (hd n rfl)
    show ({ acc with bit_depth := parseI32 (fmtInt n) } : Params) =
      { acc with bit_depth := (some n).or acc.bit_depth }
    rw [parseI32_fmtInt n hb.1 hb.2]
    rfl

theorem chunk_quality (acc : Params) (o : Option ℚ)
    (hd : ∀ v, o = some v → isDecimal v = true) :
    List.foldl applyParam acc (flattenQuery (qEntry "quality" o (fun q => [fmtF64 q]))) =
      { acc with quality := o.or acc.quality } := by
  cases o with
  | none => rfl
  | some q =>
    show ({ acc with quality := parseF64 (fmtF64 q) } : Params) =
      { acc with quality := (some q).or acc.quality }
    rw [parseF64_fmtF64 q (hd q rfl)]
    rfl

theorem chunk_compression_level (acc : Params) (o : Option Int)
    (hd : ∀ v, o = some v → i32ok v = true) :
    List.foldl applyParam acc (flattenQuery (qEntry "compression_level" o (fun n => [fmtInt n]))) =
      { acc with compression_level := o.or acc.compression_level } := by
  cases o with
  | none => rfl
  | some n =>
    have hb := i32ok_le (hd n rfl)
    show ({ acc with compression_level := parseI32 (fmtInt n) } : Params) =
      { acc with compression_level := (some n).or acc.compression_level }
    rw [parseI32_fmtInt n hb.1 hb.2]
    rfl

theorem chunk_start_time (acc : Params) (o : Option ℚ)
    (hd : ∀ v, o = some v → isDecimal v = true) :
    List.foldl applyParam acc (flattenQuery (qEntry "start_time" o (fun q => [fmtF64 q]))) =
      { acc with start_time := o.or acc.start_time } := by
  cases o with
  | none => rfl
  | some q =>
    show ({ acc with start_time := parseF64 (fmtF64 q) } : Params) =
      { acc with start_time := (some q).or acc.start_time }
    rw [parseF64_fmtF64 q (hd q rfl)]
    rfl

theorem chunk_duration (acc : Params) (o : Option ℚ)
    (hd : ∀ v, o = some v → isDecimal v = true) :
    List.foldl applyParam acc (flattenQuery (qEntry "duration" o (fun q => [fmtF64 q]))) =
      { acc with duration := o.or acc.duration } := by
  cases o with
  | none => rfl
  | some q =>
    show ({ acc with duration := parseF64 (fmtF64 q) } : Params) =
      { acc with duration := (some q).or acc.duration }
    rw [parseF64_fmtF64 q (hd q rfl)]
    rfl

theorem chunk_speed (acc : Params) (o : Option ℚ)
    (hd : ∀ v, o = some v → isDecimal v = true) :
    List.foldl applyParam acc (flattenQuery (qEntry "speed" o (fun q => [fmtF64 q]))) =
      { acc with speed := o.or acc.speed } := by
  cases o with
  | none => rfl
  | some q =>
    show ({ acc with speed := parseF64 (fmtF64 q) } : Params) =
      { acc with speed := (some q).or acc.speed }
    rw [parseF64_fmtF64 q (hd q rfl)]
    rfl

theorem chunk_reverse (acc : Params) (o : Option Bool) :
    List.foldl applyParam acc (flattenQuery (qEntry "reverse" o (fun b => [fmtBool b]))) =
      { acc with reverse := o.or acc.reverse } := by
  cases o with
  | none => rfl
  | some b => cases b <;> rfl

theorem chunk_volume (acc : Params) (o : Option ℚ)
    (hd : ∀ v, o = some v → isDecimal v = true) :
    List.foldl applyParam acc (flattenQuery (qEntry "volume" o (fun q => [fmtF64 q]))) =
      { acc with volume := o.or acc.volume } := by
  cases o with
  | none => rfl
  | some q =>
    show ({ acc with volume := parseF64 (fmtF64 q) } : Params) =
      { acc with volume := (some q).or acc.volume }
    rw [parseF64_fmtF64 q (hd q rfl)]
    rfl

theorem chunk_normalize (acc : Params) (o : Option Bool) :
    List.foldl applyParam acc (flattenQuery (qEntry "normalize" o (fun b => [fmtBool b]))) =
      { acc with normalize := o.or acc.normalize } := by
  cases o with
  | none => rfl
  | some b => cases b <;> rfl

theorem chunk_normalize_level (acc : Params) (o : Option ℚ)
    (hd : ∀ v, o = some v → isDecimal v = true) :
    List.foldl applyParam acc (flattenQuery (qEntry "normalize_level" o (fun q => [fmtF64 q]))) =
      { acc with normalize_level := o.or acc.normalize_level } := by
  cases o with
  | none => rfl
  | some q =>
    show ({ acc with normalize_level := parseF64 (fmtF64 q) } : Params) =
      { acc with normalize_level := (some q).or acc.normalize_level }
    rw [parseF64_fmtF64 q (hd q rfl)]
    rfl

theorem chunk_lowpass (acc : Params) (o : Option ℚ)
    (hd : ∀ v, o = some v → isDecimal v = true) :
    List.foldl applyParam acc (flattenQuery (qEntry "lowpass" o (fun q => [fmtF64 q]))) =
      { acc with lowpass := o.or acc.lowpass } := by
  cases o with
  | none => rfl
  | some q =>
    show ({ acc with lowpass := parseF64 (fmtF64 q) } : Params) =
      { acc with lowpass := (some q).or acc.lowpass }
    rw [parseF64_fmtF64 q (hd q rfl)]
    rfl

theorem chunk_highpass (acc : Params) (o : Option ℚ)
    (hd : ∀ v, o = some v → isDecimal v = true) :
    List.foldl applyParam acc (flattenQuery (qEntry "highpass" o (fun q => [fmtF64 q]))) =
      { acc with highpass := o.or acc.highpass } := by
  cases o with
  | none => rfl
  | some q =>
    show ({ acc with highpass := parseF64 (fmtF64 q) } : Params) =
      { acc with highpass := (some q).or acc.highpass }
    rw [parseF64_fmtF64 q (hd q rfl)]
    rfl

theorem chunk_bandpass (acc : Params) (o : Option String) :
    List.foldl applyParam acc (flattenQuery (qEntry "bandpass" o (fun s => [s]))) =
      { acc with bandpass := o.or acc.bandpass } := by
  cases o with
  | none => rfl
  | some s => rfl

theorem chunk_bass (acc : Params) (o : Option ℚ)
    (hd : ∀ v, o = some v → isDecimal v = true) :
    List.foldl applyParam acc (flattenQuery (qEntry "bass" o (fun q => [fmtF64 q]))) =
      { acc with bass := o.or acc.bass } := by
  cases o with
  | none => rfl
  | some q =>
    show ({ acc with bass := parseF64 (fmtF64 q) } : Params) =
      { acc with bass := (some q).or acc.bass }
    rw [parseF64_fmtF64 q (hd q rfl)]
    rfl

theorem chunk_treble (acc : Params) (o : Option ℚ)
    (hd : ∀ v, o = some v → isDecimal v = true) :
    List.foldl applyParam acc (flattenQuery (qEntry "treble" o (fun q => [fmtF64 q]))) =
      { acc with treble := o.or acc.treble } := by
  cases o with
  | none => rfl
  | some q =>
    show ({ acc with treble := parseF64 (fmtF64 q) } : Params) =
      { acc with treble := (some q).or acc.treble }
    rw [parseF64_fmtF64 q (hd q rfl)]
    rfl

theorem chunk_echo (acc : Params) (o : Option String) :
    List.foldl applyParam acc (flattenQuery (qEntry "echo" o (fun s => [s]))) =
      { acc with echo := o.or acc.echo } := by
  cases o with
  | none => rfl
  | some s => rfl

theorem chunk_chorus (acc : Params) (o : Option String) :
    List.foldl applyParam acc (flattenQuery (qEntry "chorus" o (fun s => [s]))) =
      { acc with chorus := o.or acc.chorus } := by
  cases o with
  | none => rfl
  | some s => rfl

theorem chunk_flanger (acc : Params) (o : Option String) :
    List.foldl applyParam acc (flattenQuery (qEntry "flanger" o (fun s => [s]))) =
      { acc with flanger := o.or acc.flanger } := by
  cases o with
  | none => rfl
  | some s => rfl

theorem chunk_phaser (acc : Params) (o : Option String) :
    List.foldl applyParam acc (flattenQuery (qEntry "phaser" o (fun s => [s]))) =
      { acc with phaser := o.or acc.phaser } := by
  cases o with
  | none => rfl
  | some s => rfl

theorem chunk_tremolo (acc : Params) (o : Option String) :
    List.foldl applyParam acc (flattenQuery (qEntry "tremolo" o (fun s => [s]))) =
      { acc with tremolo := o.or acc.tremolo } := by
  cases o with
  | none => rfl
  | some s => rfl

theorem chunk_compressor (acc : Params) (o : Option String) :
    List.foldl applyParam acc (flattenQuery (qEntry "compressor" o (fun s => [s]))) =
      { acc with compressor := o.or acc.compressor } := by
  cases o with
  | none => rfl
  | some s => rfl

theorem chunk_noise_reduction (acc : Params) (o : Option String) :
    List.foldl applyParam acc (flattenQuery (qEntry "noise_reduction" o (fun s => [s]))) =
      { acc with noise_reduction := o.or acc.noise_reduction } := by
  cases o with
  | none => rfl
  | some s => rfl

theorem chunk_fade_in (acc : Params) (o : Option ℚ)
    (hd : ∀ v, o = some v → isDecimal v = true) :
    List.foldl applyParam acc (flattenQuery (qEntry "fade_in" o (fun q => [fmtF64 q]))) =
      { acc with fade_in := o.or acc.fade_in } := by
  cases o with
  | none => rfl
  | some q =>
    show ({ acc with fade_in := parseF64 (fmtF64 q) } : Params) =
      { acc with fade_in := (some q).or acc.fade_in }
    rw [parseF64_fmtF64 q (hd q rfl)]
    rfl

theorem chunk_fade_out (acc : Params) (o : Option ℚ)
    (hd : ∀ v, o = some v → isDecimal v = true) :
    List.foldl applyParam acc (flattenQuery (qEntry "fade_out" o (fun q => [fmtF64 q]))) =
      { acc with fade_out := o.or acc.fade_out } := by
  cases o with
  | none => rfl
  | some q =>
    show ({ acc with fade_out := parseF64 (fmtF64 q) } : Params) =
      { acc with fade_out := (some q).or acc.fade_out }
    rw [parseF64_fmtF64 q (hd q rfl)]
    rfl

theorem chunk_cross_fade (acc : Params) (o : Option ℚ)
    (hd : ∀ v, o = some v → isDecimal v = true) :
    List.foldl applyParam acc (flattenQuery (qEntry "cross_fade" o (fun q => [fmtF64 q]))) =
      { acc with cross_fade := o.or acc.cross_fade } := by
  cases o with
  | none => rfl
  | some q =>
    show ({ acc with cross_fade := parseF64 (fmtF64 q) } : Params) =
      { acc with cross_fade := (some q).or acc.cross_fade }
    rw [parseF64_fmtF64 q (hd q rfl)]
    rfl

theorem chunk_custom_filters (acc : Params) (o : Option (List String)) (ho : o = none) :
    List.foldl applyParam acc (flattenQuery (qEntry "custom_filters" o (fun l => l))) =
      { acc with custom_filters := o.or acc.custom_filters } := by
  subst ho
  rfl

theorem chunk_custom_options (acc : Params) (o : Option (List String)) (ho : o = none) :
    List.foldl applyParam acc (flattenQuery (qEntry "custom_options" o (fun l => l))) =
      { acc with custom_options := o.or acc.custom_options } := by
  subst ho
  rfl


/-- Folding the query loop over rendered tag pairs extends the accumulated
tag map with `insertA`, pair by pair. -/
theorem chunk_tags_some (ts : List (String × String)) :
    ∀ (acc : Params) (m : List (String × String)), acc.tags = some m →
      (∀ kv ∈ ts, strStarts "tag_" kv.1 = false) →
      List.foldl applyParam acc (flattenQuery (ts.map fun kv => ("tag_" ++ kv.1, [kv.2]))) =
        { acc with
          tags := some (ts.foldl (fun m2 kv => insertA m2 kv.1 kv.2) m) } := by
  induction ts with
  | nil =>
    intro acc m hm _
    have h2 : ({acc with tags := some m} : Params) = acc := by rw [← hm]
    exact h2.symm
  | cons a t ih =>
    intro acc m hm hs
    rcases a with ⟨tk, tv⟩
    have hs0 : strStarts "tag_" tk = false := hs (tk, tv) (by simp)
    have happ : applyParam acc ("tag_" ++ tk, tv) =
        { acc with tags := some (insertA m tk tv) } := by
      rw [applyParam_tagkey, trim_tag tk hs0, hm]
      rfl
    rw [List.map_cons, flattenQuery_cons_single, List.foldl_cons, happ]
    rw [ih ({ acc with tags := some (insertA m tk tv) }) (insertA m tk tv) rfl
      (fun kv hkv => hs kv (by simp [hkv]))]
    rfl

/-- A clean tag map rendered by `to_query` is rebuilt identically by the
query loop of `from_path`. -/
theorem chunk_tags_map (acc : Params) (ts : List (String × String)) (h : acc.tags = none)
    (hne : ts ≠ []) (hnd : (ts.map Prod.fst).Nodup)
    (hall : ∀ kv ∈ ts, strStarts "tag_" kv.1 = false) :
    List.foldl applyParam acc (flattenQuery (ts.map fun kv => ("tag_" ++ kv.1, [kv.2]))) =
      { acc with tags := some ts } := by
  cases ts with
  | nil => exact absurd rfl hne
  | cons a t =>
    rcases a with ⟨tk, tv⟩
    have hs0 : strStarts "tag_" tk = false := hall (tk, tv) (by simp)
    have happ : applyParam acc ("tag_" ++ tk, tv) =
        { acc with tags := some (insertA [] tk tv) } := by
      rw [applyParam_tagkey, trim_tag tk hs0, h]
      rfl
    rw [List.map_cons, flattenQuery_cons_single, List.foldl_cons, happ]
    rw [chunk_tags_some t ({ acc with tags := some (insertA [] tk tv) }) (insertA [] tk tv)
      rfl (fun kv hkv => hall kv (by simp [hkv]))]
    rw [show (t.foldl (fun m2 kv => insertA m2 kv.1 kv.2) (insertA [] tk tv)) =
        (((tk, tv) :: t).foldl (fun m2 kv => insertA m2 kv.1 kv.2) []) from rfl]
    rw [insertA_fold_eq _ hnd]

/-- The query loop of `from_path`, run over the full rendered query of a
well-formed `p`, rebuilds `p` (with the key taken from the loop seed). -/
theorem buildExplicit_to_query (p : Params) (k : String) (hwf : wellFormed p = true) :
    buildExplicit k (flattenQuery (Params.to_query p)) = { p with key := k } := by
  simp only [wellFormed, Bool.and_eq_true] at hwf
  obtain ⟨⟨⟨⟨⟨⟨⟨⟨⟨⟨⟨⟨⟨⟨⟨⟨⟨⟨⟨⟨h1, h2⟩, h3⟩, h4⟩, h5⟩, h6⟩, h7⟩, h8⟩, h9⟩, h10⟩, h11⟩, h12⟩, h13⟩, h14⟩, h15⟩, h16⟩, h17⟩, h18⟩, h19⟩, h20⟩, h21⟩ := hwf
  have hcf : p.custom_filters = none := Option.isNone_iff_eq_none.mp h19
  have hco : p.custom_options = none := Option.isNone_iff_eq_none.mp h20
  unfold buildExplicit Params.to_query
  simp only [flattenQuery_append, List.foldl_append]
  rw [chunk_format]
  rw [chunk_codec]
  rw [chunk_sample_rate _ p.sample_rate (decOpt_true h1)]
  rw [chunk_channels _ p.channels (decOpt_true h2)]
  rw [chunk_bit_rate _ p.bit_rate (decOpt_true h3)]
  rw [chunk_bit_depth _ p.bit_depth (decOpt_true h4)]
  rw [chunk_quality _ p.quality (decOpt_true h6)]
  rw [chunk_compression_level _ p.compression_level (decOpt_true h5)]
  rw [chunk_start_time _ p.start_time (decOpt_true h7)]
  rw [chunk_duration _ p.duration (decOpt_true h8)]
  rw [chunk_speed _ p.speed (decOpt_true h9)]
  rw [chunk_reverse]
  rw [chunk_volume _ p.volume (decOpt_true h10)]
  rw [chunk_normalize]
  rw [chunk_normalize_level _ p.normalize_level (decOpt_true h11)]
  rw [chunk_lowpass _ p.lowpass (decOpt_true h12)]
  rw [chunk_highpass _ p.highpass (decOpt_true h13)]
  rw [chunk_bandpass]
  rw [chunk_bass _ p.bass (decOpt_true h14)]
  rw [chunk_treble _ p.treble (decOpt_true h15)]
  rw [chunk_echo]
  rw [chunk_chorus]
  rw [chunk_flanger]
  rw [chunk_phaser]
  rw [chunk_tremolo]
  rw [chunk_compressor]
  rw [chunk_noise_reduction]
  rw [chunk_fade_in _ p.fade_in (decOpt_true h16)]
  rw [chunk_fade_out _ p.fade_out (decOpt_true h17)]
  rw [chunk_cross_fade _ p.cross_fade (decOpt_true h18)]
  rw [chunk_custom_filters _ p.custom_filters hcf]
  rw [chunk_custom_options _ p.custom_options hco]
  simp only [Option.or_none]
  cases hts : p.tags with
  | none => rfl
  | some ts =>
    rw [hts] at h21
    simp only [tagsOk, Bool.and_eq_true, decide_eq_true_eq, List.all_eq_true] at h21
    obtain ⟨⟨hne, hnd⟩, hall⟩ := h21
    exact chunk_tags_map _ ts rfl hne hnd hall


/-! ## Claim C3: query-string round-trip -/

/-- C3, counterexample: the round-trip is refuted for `custom_filters`.
`to_query` renders the list under the single key `custom_filters`
(`params.rs:405-407`), but the query loop of `from_path` recognises only
`filter_`-prefixed keys (`params.rs:301-303`), so the rendered filters are
silently dropped and the parsed record differs from the original. -/
theorem c3_roundtrip_counterexample :
    (from_path (fun _ => none) "t.mp3"
        (flattenQuery (Params.to_query
          { key := "t.mp3", custom_filters := some ["vibrato=f=5"] }))).map
      (fun r => r.with_key "t.mp3") = .ok { key := "t.mp3" } ∧
    ({ key := "t.mp3" } : Params).custom_filters ≠
      ({ key := "t.mp3",
          custom_filters := some ["vibrato=f=5"] } : Params).custom_filters :=
  ⟨rfl, by decide⟩

/-- C3 (corrected): for every well-formed `Params` p (numeric fields
genuine finite `f64`/`i32` values, `custom_filters`/`custom_options`
unset, tags a non-empty map with distinct keys none of which starts with
`tag_`), parsing the query rendering of p and restoring p's key yields p
again: `from_path` on `flattenQuery p.to_query`, post-composed with
`with_key p.key`, is `.ok p` for every request path.  The unqualified
claim (any subset of fields including the sequence fields) is refuted by
`c3_roundtrip_counterexample`. -/
theorem c3_roundtrip (decode : String → Option Params) (path : String) (p : Params)
    (hwf : wellFormed p = true) :
    (from_path decode path (flattenQuery (Params.to_query p))).map
      (fun r => r.with_key p.key) = .ok p := by
  rw [from_path_of_no_encoded decode path _ (to_query_no_encoded p)]
  rw [buildExplicit_to_query p (lastSegment path) hwf]
  rw [merge_default ({ p with key := lastSegment path }) (lastSegment path) rfl
    (wellFormed_tags_nodup hwf)]
  rfl

/-- Concrete parameters exercising scalar, boolean, rational, integer,
string and tag fields for the C3 witness. -/
def c3wP : Params :=
  { key := "song.mp3", format := some .flac, codec := some "aac",
    sample_rate := some 44100, channels := some 2,
    quality := some (9/2), speed := some (3/2), reverse := some true,
    volume := some (4/5), echo := some "0.8:0.88:60:0.4",
    tags := some [("artist", "me"), ("album", "x")] }

/-- Witness for `c3_roundtrip` at `c3wP` with path `music/song.mp3`. -/
theorem c3_roundtrip_witness :
    wellFormed c3wP = true ∧
      (from_path (fun _ => none) "music/song.mp3"
          (flattenQuery (Params.to_query c3wP))).map
        (fun r => r.with_key c3wP.key) = .ok c3wP :=
  ⟨by decide, c3_roundtrip (fun _ => none) "music/song.mp3" c3wP (by decide)⟩
end FreqModa
